import Mathlib

/-!
# AM32 bootloader: MCU utility layer (`Mcu/g431/Inc/blutil.h`, `Mcu/v203/Inc/blutil.h`)

A shallow embedding of the two `blutil.h` headers.  Memory-mapped registers are
natural numbers, `uint32_t` arithmetic is reduced modulo `2 ^ 32` explicitly,
register files are structures that are passed through each operation, and
busy-wait loops run on fuel against an oracle for the hardware status reads.
-/

namespace AM32

/-! ## 32-bit machine arithmetic -/

/-- Conversion of a value to `uint32_t`. -/
def u32 (x : Nat) : Nat := x % 2 ^ 32

/-- Conversion of a value to `uint16_t`. -/
def u16 (x : Nat) : Nat := x % 2 ^ 16

/-- The C operator `~` on a `uint32_t` operand. -/
def not32 (x : Nat) : Nat := 0xFFFFFFFF ^^^ u32 x

/-- The C operator `*` on `uint32_t` operands. -/
def mul32 (a b : Nat) : Nat := u32 (a * b)

/-- The number below `2 ^ k` whose bit `i` is `f i`. -/
def bitsBelow (f : Nat → Bool) : Nat → Nat
  | 0 => 0
  | k + 1 => bitsBelow f k + (if f k then 2 ^ k else 0)

/-! ## CH32V203 (`Mcu/v203/Inc/blutil.h`) -/

namespace V203

/-- Embeds `#define RAM_BASE 0x20000000` -/
def RAM_BASE : Nat := 0x20000000

/-- Embeds `#define RAM_SIZE 20*1024` -/
def RAM_SIZE : Nat := 20 * 1024

/-- Embeds `#define GPIO_PIN(n) (1U<<(n))` -/
def GPIO_PIN (n : Nat) : Nat := u32 (1 <<< n)

/-- Embeds `#define GPIO_PULL_NONE 0 // floating` -/
def GPIO_PULL_NONE : Nat := 0

/-- Embeds `#define GPIO_PULL_UP   1` -/
def GPIO_PULL_UP : Nat := 1

/-- Embeds `#define GPIO_PULL_DOWN 2` -/
def GPIO_PULL_DOWN : Nat := 2

/-- Embeds `#define GPIO_OUTPUT_PUSH_PULL (GPIO_Speed_2MHz)`; the vendor enumerator
`GPIO_Speed_2MHz` is not declared in this header and is taken as a parameter. -/
def GPIO_OUTPUT_PUSH_PULL (GPIO_Speed_2MHz : Nat) : Nat := GPIO_Speed_2MHz

/-- The registers of a GPIO port that the header touches. -/
inductive Reg
  | CFGLR
  | CFGHR
  | INDR
  | OUTDR
  | BSHR
  | BCR
  deriving DecidableEq, Repr

/-- The port `input_port`: the configuration registers, the output latch, the
levels applied to the pads from outside, and the log of register writes in
program order (oldest first). -/
structure GPIO_TypeDef where
  CFGLR : Nat
  CFGHR : Nat
  OUTDR : Nat
  pads : Nat
  writes : List (Reg × Nat)

/-- The configuration register that holds line `i`: `CFGLR` for lines 0 to 7,
`CFGHR` for lines 8 to 15. -/
def cfgRegOf (i : Nat) : Reg := if i < 8 then Reg.CFGLR else Reg.CFGHR

/-- The configuration register that does not hold line `i`. -/
def otherCfgRegOf (i : Nat) : Reg := if i < 8 then Reg.CFGHR else Reg.CFGLR

/-- The stored value of a configuration register or of the output latch. -/
def GPIO_TypeDef.stored (p : GPIO_TypeDef) : Reg → Nat
  | .CFGLR => p.CFGLR
  | .CFGHR => p.CFGHR
  | .OUTDR => p.OUTDR
  | _ => 0

/-- The 4-bit configuration field of line `i`, at bit offset `4 * (i % 8)` of
its configuration register. -/
def cfgField (p : GPIO_TypeDef) (i : Nat) : Nat :=
  (p.stored (cfgRegOf i) >>> (4 * (i % 8))) % 16

/-- A line is configured as an output when the MODE half (low two bits) of its
configuration field is not zero. -/
def pinIsOutput (p : GPIO_TypeDef) (i : Nat) : Bool := cfgField p i % 4 != 0

/-- Level seen on line `i`: the output latch for a line configured as output,
the pad otherwise. -/
def lineLevel (p : GPIO_TypeDef) (i : Nat) : Bool :=
  if pinIsOutput p i then p.OUTDR.testBit i else p.pads.testBit i

/-- The input data register of the 16-line port. -/
def INDR (p : GPIO_TypeDef) : Nat := bitsBelow (lineLevel p) 16

/-- A register read. The write-only registers read as zero. -/
def GPIO_TypeDef.read (p : GPIO_TypeDef) : Reg → Nat
  | .CFGLR => p.CFGLR
  | .CFGHR => p.CFGHR
  | .INDR => INDR p
  | .OUTDR => p.OUTDR
  | .BSHR => 0
  | .BCR => 0

/-- A register write of a `uint32_t`. A write to the bit-set register `BSHR`
sets exactly the written bits of the output latch, a write to the bit-clear
register `BCR` clears exactly the written bits; `INDR` is read-only. -/
def GPIO_TypeDef.write (p : GPIO_TypeDef) (r : Reg) (v : Nat) : GPIO_TypeDef :=
  let q := { p with writes := p.writes ++ [(r, u32 v)] }
  match r with
  | .CFGLR => { q with CFGLR := u32 v }
  | .CFGHR => { q with CFGHR := u32 v }
  | .INDR => q
  | .OUTDR => { q with OUTDR := u32 v }
  | .BSHR => { q with OUTDR := p.OUTDR ||| u32 v }
  | .BCR => { q with OUTDR := p.OUTDR &&& not32 v }

/-- The value `pin` has after `if (pin >= GPIO_PIN(8)) { pin >>= 8; ... }`. -/
def shiftedPin (pin : Nat) : Nat := if pin ≥ GPIO_PIN 8 then pin >>> 8 else pin

/-- The register `cfgr` points to after the same `if`. -/
def cfgrOf (pin : Nat) : Reg := if pin ≥ GPIO_PIN 8 then Reg.CFGHR else Reg.CFGLR

/-- Embeds `const uint32_t mul = pin*pin*pin*pin;` on the (possibly shifted) `pin`. -/
def mulOf (pin : Nat) : Nat := mul32 (mul32 (mul32 pin pin) pin) pin

/-- Embeds `gpio_mode_set_input(pin, pull_up_down)`. -/
def gpio_mode_set_input (pin pull_up_down : Nat) (p : GPIO_TypeDef) : GPIO_TypeDef :=
  let cfgr := cfgrOf pin
  let pin := shiftedPin pin
  let mul := mulOf pin
  let CFG := p.read cfgr &&& not32 (mul32 0xf mul)
  if pull_up_down = GPIO_PULL_NONE then
    p.write cfgr (CFG ||| mul32 0x4 mul)
  else if pull_up_down = GPIO_PULL_UP then
    (p.write Reg.OUTDR (p.read Reg.OUTDR ||| pin)).write cfgr (CFG ||| mul32 0x8 mul)
  else if pull_up_down = GPIO_PULL_DOWN then
    (p.write Reg.OUTDR (p.read Reg.OUTDR &&& not32 pin)).write cfgr (CFG ||| mul32 0x8 mul)
  else
    p

/-- Embeds `gpio_mode_set_output(pin, output_mode)`. -/
def gpio_mode_set_output (pin output_mode : Nat) (p : GPIO_TypeDef) : GPIO_TypeDef :=
  let cfgr := cfgrOf pin
  let pin := shiftedPin pin
  let mul := mulOf pin
  let CFG := p.read cfgr &&& not32 (mul32 0xf mul)
  p.write cfgr (CFG ||| mul32 output_mode mul)

/-- Embeds `gpio_set(pin)`: `input_port->BSHR = pin;` -/
def gpio_set (pin : Nat) (p : GPIO_TypeDef) : GPIO_TypeDef := p.write Reg.BSHR pin

/-- Embeds `gpio_clear(pin)`: `input_port->BCR = pin;` -/
def gpio_clear (pin : Nat) (p : GPIO_TypeDef) : GPIO_TypeDef := p.write Reg.BCR pin

/-- Embeds `gpio_read(pin)`: `return (input_port->INDR & pin) != 0;` -/
def gpio_read (pin : Nat) (p : GPIO_TypeDef) : Bool := (p.read Reg.INDR &&& pin) != 0

/-- The registers of `BL_TIMER` (`TIM2`) that the header configures or reads. -/
structure TIM_TypeDef where
  CTLR1 : Nat
  PSC : Nat
  ATRLR : Nat
  CNT : Nat

/-- The fields of `TIM_TimeBaseInitTypeDef` that `bl_timer_init` assigns. -/
structure TIM_TimeBaseInitTypeDef where
  TIM_Prescaler : Nat
  TIM_Period : Nat
  TIM_ClockDivision : Nat
  TIM_CounterMode : Nat

/-- Modelled from the spec: the vendor function `TIM_TimeBaseInit`, which is
not in this header. Spec 4.3: "configures a hardware counter to free-run
upward": it loads the prescaler and the period of the timer and touches no
register outside the timer. The counter-mode and clock-division bits it places
in `CTLR1` are not modelled. -/
def TIM_TimeBaseInit (t : TIM_TypeDef) (s : TIM_TimeBaseInitTypeDef) : TIM_TypeDef :=
  { t with PSC := u16 s.TIM_Prescaler, ATRLR := u16 s.TIM_Period }

/-- Modelled from the spec: the vendor function `TIM_SetCounter`, which is not
in this header; it stores the given value in the 16-bit counter. -/
def TIM_SetCounter (t : TIM_TypeDef) (v : Nat) : TIM_TypeDef := { t with CNT := u16 v }

/-- The clock-enable register `RCC->APB1PCENR`, the timer, the interrupt enable
state, the stack pointer, the flash contents (word at a byte address) and the
log of flash addresses read. -/
structure Machine where
  APB1PCENR : Nat
  TIM2 : TIM_TypeDef
  irq_enabled : Bool
  sp : Nat
  flash : Nat → Nat
  flash_reads : List Nat

/-- Embeds `bl_timer_init()`. The vendor constants `RCC_APB1Periph_TIM2`, `TIM_CKD_DIV1`,
`TIM_CounterMode_Up`, `TIM_ARPE` and `TIM_CEN` are not declared in this header
and are parameters. `TIM_TimeBaseStructInit` fills the structure with defaults;
the four fields kept here are then assigned. -/
def bl_timer_init (RCC_APB1Periph_TIM2 TIM_CKD_DIV1 TIM_CounterMode_Up TIM_ARPE TIM_CEN : Nat)
    (m : Machine) : Machine :=
  let m := { m with APB1PCENR := u32 (m.APB1PCENR ||| RCC_APB1Periph_TIM2) }
  let TIM_TimeBaseStructure : TIM_TimeBaseInitTypeDef :=
    { TIM_Prescaler := 143, TIM_Period := 0xFFFF, TIM_ClockDivision := TIM_CKD_DIV1,
      TIM_CounterMode := TIM_CounterMode_Up }
  let t := TIM_TimeBaseInit m.TIM2 TIM_TimeBaseStructure
  let t := TIM_SetCounter t 0
  let t := { t with CTLR1 := u16 (t.CTLR1 ||| TIM_ARPE) }
  let t := { t with CTLR1 := u16 (t.CTLR1 ||| TIM_CEN) }
  { m with TIM2 := t }

/-- Embeds `bl_timer_disable()`: `RCC->APB1PCENR &= ~RCC_APB1Periph_TIM2;` -/
def bl_timer_disable (RCC_APB1Periph_TIM2 : Nat) (m : Machine) : Machine :=
  { m with APB1PCENR := u32 (m.APB1PCENR &&& not32 RCC_APB1Periph_TIM2) }

/-- Embeds `bl_timer_us()`: `return BL_TIMER->CNT;` converted to `uint16_t`. -/
def bl_timer_us (m : Machine) : Nat := u16 m.TIM2.CNT

/-- Embeds `__disable_irq()`. -/
def disable_irq (m : Machine) : Machine := { m with irq_enabled := false }

/-- Embeds `jump_to_application()`: the machine state just before the final `jr` and
the address `jr` branches to. `FIRMWARE_RELATIVE_START` comes from the build
configuration and is a parameter. -/
def jump_to_application (RCC_APB1Periph_TIM2 FIRMWARE_RELATIVE_START : Nat) (m : Machine) :
    Machine × Nat :=
  let m := disable_irq m
  let m := bl_timer_disable RCC_APB1Periph_TIM2 m
  let app_address := u32 FIRMWARE_RELATIVE_START
  let stack_top := u32 (RAM_BASE + RAM_SIZE)
  ({ m with sp := stack_top }, app_address)

end V203

/-! ## Free-running up-counter -/

/-- One count of an up-counter with auto-reload value `arr`: the counter counts
from 0 to `arr` and then restarts from 0. -/
def upCount (arr cnt : Nat) : Nat := if cnt ≥ arr then 0 else cnt + 1

/-- The counter value after `d` counts. -/
def advance (arr : Nat) : Nat → Nat → Nat
  | 0, cnt => cnt
  | d + 1, cnt => advance arr d (upCount arr cnt)

/-- The difference `t2 - t1` of two `uint16_t` readings, reduced modulo `2 ^ 16`. -/
def elapsed16 (t1 t2 : Nat) : Int := ((t2 : Int) - (t1 : Int)) % 2 ^ 16

/-- The v203 machine with its timer counter at `c`. -/
def V203.atCount (m : V203.Machine) (c : Nat) : V203.Machine :=
  { m with TIM2 := { m.TIM2 with CNT := c } }

/-- The v203 machine after its timer has counted `d` times against the period
register `ATRLR`. -/
def V203.afterTicks (m : V203.Machine) (d : Nat) : V203.Machine :=
  { m with TIM2 := { m.TIM2 with CNT := advance m.TIM2.ATRLR d m.TIM2.CNT } }

/-! ## STM32G431 (`Mcu/g431/Inc/blutil.h`) -/

namespace G431

/-- Embeds `#define RAM_BASE 0x20000000` -/
def RAM_BASE : Nat := 0x20000000

/-- Embeds `#define RAM_SIZE 32*1024` -/
def RAM_SIZE : Nat := 32 * 1024

/-- Embeds `#define GPIO_PIN(n) (1U<<(n))` -/
def GPIO_PIN (n : Nat) : Nat := u32 (1 <<< n)

/-- The port `input_port` as the spec describes it: which lines are configured
as outputs, their drive type, the output latch and the levels applied to the
pads from outside. -/
structure GPIO_TypeDef where
  outputs : Nat
  OTYPER : Nat
  ODR : Nat
  pads : Nat

/-- The input data register: the output latch on the lines configured as
outputs, the pads on the others. -/
def IDR (p : GPIO_TypeDef) : Nat := u32 ((p.ODR &&& p.outputs) ||| (p.pads &&& not32 p.outputs))

/-- Modelled from the spec: the vendor function `LL_GPIO_SetPinMode`, which is
not in this header. Spec 4.2: `set_output_mode` "configures direction=output",
`set_input_mode` "configures direction=input"; `isOutput` says whether the mode
argument is `LL_GPIO_MODE_OUTPUT`. -/
def LL_GPIO_SetPinMode (p : GPIO_TypeDef) (pin : Nat) (isOutput : Bool) : GPIO_TypeDef :=
  if isOutput then { p with outputs := u32 (p.outputs ||| pin) }
  else { p with outputs := p.outputs &&& not32 pin }

/-- Modelled from the spec: the vendor function `LL_GPIO_SetPinOutputType`,
which is not in this header. Spec 4.2: "with the given drive strength/type"; the
drive type of the lines in `pin` is stored and nothing else changes. -/
def LL_GPIO_SetPinOutputType (p : GPIO_TypeDef) (pin output_type : Nat) : GPIO_TypeDef :=
  { p with OTYPER := u32 ((p.OTYPER &&& not32 pin) ||| mul32 pin output_type) }

/-- Modelled from the spec: the vendor function `LL_GPIO_SetOutputPin`, which
is not in this header. Spec 4.2: "atomic single-bit set/reset via a write-only
bit-set/bit-clear register"; the write sets exactly the written bits of the
output latch. -/
def LL_GPIO_SetOutputPin (p : GPIO_TypeDef) (pin : Nat) : GPIO_TypeDef :=
  { p with ODR := p.ODR ||| u32 pin }

/-- Modelled from the spec: the vendor function `LL_GPIO_ResetOutputPin`, which
is not in this header. Spec 4.2: "atomic single-bit set/reset via a write-only
bit-set/bit-clear register"; the write clears exactly the written bits of the
output latch. -/
def LL_GPIO_ResetOutputPin (p : GPIO_TypeDef) (pin : Nat) : GPIO_TypeDef :=
  { p with ODR := p.ODR &&& not32 pin }

/-- Modelled from the spec: the vendor function `LL_GPIO_IsInputPinSet`, which
is not in this header. Spec 4.2: `read_line` "returns current sampled input
level": whether all lines of `pin` read high in the input data register. -/
def LL_GPIO_IsInputPinSet (p : GPIO_TypeDef) (pin : Nat) : Bool := (IDR p &&& pin) == pin

/-- Embeds `#define GPIO_OUTPUT_PUSH_PULL LL_GPIO_OUTPUT_PUSHPULL`; the vendor constant
is not declared in this header and is taken as a parameter. -/
def GPIO_OUTPUT_PUSH_PULL (LL_GPIO_OUTPUT_PUSHPULL : Nat) : Nat := LL_GPIO_OUTPUT_PUSHPULL

/-- Embeds `gpio_mode_set_output(pin, output_mode)`. -/
def gpio_mode_set_output (pin output_mode : Nat) (p : GPIO_TypeDef) : GPIO_TypeDef :=
  LL_GPIO_SetPinOutputType (LL_GPIO_SetPinMode p pin true) pin output_mode

/-- Embeds `gpio_set(pin)`. -/
def gpio_set (pin : Nat) (p : GPIO_TypeDef) : GPIO_TypeDef := LL_GPIO_SetOutputPin p pin

/-- Embeds `gpio_clear(pin)`. -/
def gpio_clear (pin : Nat) (p : GPIO_TypeDef) : GPIO_TypeDef := LL_GPIO_ResetOutputPin p pin

/-- Embeds `gpio_read(pin)`. -/
def gpio_read (pin : Nat) (p : GPIO_TypeDef) : Bool := LL_GPIO_IsInputPinSet p pin

/-- The state of `BL_TIMER` (`TIM2`): counter enable, auto-reload preload,
prescaler, auto-reload value and counter. -/
structure TIM_TypeDef where
  counterEnabled : Bool
  arrPreload : Bool
  PSC : Nat
  ARR : Nat
  CNT : Nat

/-- The fields of `LL_TIM_InitTypeDef` that `bl_timer_init` assigns; the counter
mode is `LL_TIM_COUNTERMODE_UP` and the clock division `LL_TIM_CLOCKDIVISION_DIV1`. -/
structure LL_TIM_InitTypeDef where
  Prescaler : Nat
  Autoreload : Nat

/-- Modelled from the spec: the vendor function `LL_TIM_Init`, which is not in
this header. Spec 4.3: "configures a hardware counter to free-run upward": it
loads the auto-reload value and the prescaler of the 32-bit timer. -/
def LL_TIM_Init (t : TIM_TypeDef) (s : LL_TIM_InitTypeDef) : TIM_TypeDef :=
  { t with ARR := u32 s.Autoreload, PSC := u16 s.Prescaler }

/-- Modelled from the spec: the vendor function `LL_TIM_DeInit`, which is not
in this header. Spec 4.3: `disable_timer()` "stops the counter": the timer is
returned to its reset state, in which the counter is not enabled. -/
def LL_TIM_DeInit (_t : TIM_TypeDef) : TIM_TypeDef :=
  { counterEnabled := false, arrPreload := false, PSC := 0, ARR := 0xFFFFFFFF, CNT := 0 }

/-- The timer and its bus clock enable, the interrupt enable state, the
vector-table base register, the stack pointers, the flash contents (word at a
byte address) and the log of flash addresses read. -/
structure Machine where
  tim2_clock : Bool
  TIM2 : TIM_TypeDef
  irq_enabled : Bool
  VTOR : Nat
  sp : Nat
  msp : Nat
  flash : Nat → Nat
  flash_reads : List Nat

/-- Embeds `TIM_InitStruct.Prescaler = (160-1);` -/
def bl_timer_init_Prescaler : Nat := 160 - 1

/-- Embeds `bl_timer_init()`. `LL_APB1_GRP1_EnableClock` turns the bus clock of the
timer on, `LL_TIM_DisableARRPreload` clears the preload flag and
`LL_TIM_EnableCounter` sets the counter enable. `LL_TIM_SetClockSource`,
`LL_TIM_SetTriggerOutput`, `LL_TIM_DisableMasterSlaveMode` and
`LL_TIM_SetCounterMode` select the internal clock, the reset trigger output, no
slave mode and up-counting, which is the only behaviour of the counter in this
state. -/
def bl_timer_init (m : Machine) : Machine :=
  let m := { m with tim2_clock := true }
  let TIM_InitStruct : LL_TIM_InitTypeDef :=
    { Prescaler := bl_timer_init_Prescaler, Autoreload := 0xFFFFFFFF }
  let t := LL_TIM_Init m.TIM2 TIM_InitStruct
  let t := { t with arrPreload := false }
  let t := { t with counterEnabled := true }
  { m with TIM2 := t }

/-- Embeds `bl_timer_disable()`: `LL_TIM_DeInit(BL_TIMER);` -/
def bl_timer_disable (m : Machine) : Machine := { m with TIM2 := LL_TIM_DeInit m.TIM2 }

/-- Embeds `bl_timer_us()`: `return LL_TIM_GetCounter(BL_TIMER);` converted to `uint16_t`. -/
def bl_timer_us (m : Machine) : Nat := u16 m.TIM2.CNT

/-- The g431 machine with its timer counter at `c`. -/
def atCount (m : Machine) (c : Nat) : Machine := { m with TIM2 := { m.TIM2 with CNT := c } }

/-- The g431 machine after its timer has counted `d` times against the
auto-reload register `ARR`. -/
def afterTicks (m : Machine) (d : Nat) : Machine :=
  { m with TIM2 := { m.TIM2 with CNT := advance m.TIM2.ARR d m.TIM2.CNT } }

/-- Embeds `__disable_irq()`. -/
def disable_irq (m : Machine) : Machine := { m with irq_enabled := false }

/-- The read of `app_data[i]`, a `uint32_t` at byte address `app_address + 4 * i`. -/
def readFlash (m : Machine) (addr : Nat) : Machine × Nat :=
  ({ m with flash_reads := m.flash_reads ++ [addr] }, u32 (m.flash addr))

/-- Embeds `const uint32_t app_address = MCU_FLASH_START + FIRMWARE_RELATIVE_START;` with
both constants, which come from the build configuration, as parameters. -/
def app_address (MCU_FLASH_START FIRMWARE_RELATIVE_START : Nat) : Nat :=
  u32 (MCU_FLASH_START + FIRMWARE_RELATIVE_START)

/-- Embeds `jump_to_application()`: the machine state just before the final `bx` and
the address `bx` branches to. -/
def jump_to_application (MCU_FLASH_START FIRMWARE_RELATIVE_START : Nat) (m : Machine) :
    Machine × Nat :=
  let m := disable_irq m
  let m := bl_timer_disable m
  let app_address := app_address MCU_FLASH_START FIRMWARE_RELATIVE_START
  let (m, stack_top) := readFlash m app_address
  let (m, JumpAddress) := readFlash m (app_address + 4)
  let m := { m with VTOR := app_address }
  let m := { m with sp := stack_top }
  let m := { m with msp := stack_top }
  (m, JumpAddress)

/-! ### Clock bring-up -/

/-- Modelled from the spec: the vendor constant `LL_FLASH_LATENCY_4`, which is
not declared in this header: the flash wait-state setting 4. -/
def LL_FLASH_LATENCY_4 : Nat := 4

/-- Modelled from the spec: the vendor constant `LL_PWR_REGU_VOLTAGE_SCALE1`,
which is not declared in this header: voltage scaling range 1. -/
def LL_PWR_REGU_VOLTAGE_SCALE1 : Nat := 1

/-- The clock sources of the PLL. -/
inductive PLLSource
  | NONE
  | HSI
  | HSE
  deriving DecidableEq, Repr

/-- The frequency in Hz of the internal oscillator HSI, 16 MHz (the comment in
`bl_timer_init`, "HSI PLL clock is 160Mz", is this value divided by 2,
multiplied by 40, divided by 2). -/
def HSI_VALUE : Nat := 16000000

/-- Modelled from the spec: the vendor constant `LL_RCC_PLLSOURCE_HSI`, which
is not declared in this header: the internal oscillator as PLL source. -/
def LL_RCC_PLLSOURCE_HSI : PLLSource := PLLSource.HSI

/-- Modelled from the spec: the vendor constant `LL_RCC_PLLM_DIV_2`, which is
not declared in this header, represented by the divider it selects. -/
def LL_RCC_PLLM_DIV_2 : Nat := 2

/-- Modelled from the spec: the vendor constant `LL_RCC_PLLR_DIV_2`, which is
not declared in this header, represented by the divider it selects. -/
def LL_RCC_PLLR_DIV_2 : Nat := 2

/-- Modelled from the spec: the vendor constant `LL_RCC_SYSCLK_DIV_1`, which is
not declared in this header, represented by the AHB prescaler it selects. -/
def LL_RCC_SYSCLK_DIV_1 : Nat := 1

/-- Modelled from the spec: the vendor constant `LL_RCC_APB1_DIV_1`, which is
not declared in this header, represented by the APB1 prescaler it selects. -/
def LL_RCC_APB1_DIV_1 : Nat := 1

/-- Modelled from the spec: the vendor constant `LL_RCC_APB2_DIV_1`, which is
not declared in this header, represented by the APB2 prescaler it selects. -/
def LL_RCC_APB2_DIV_1 : Nat := 1

/-- The system clock sources. -/
inductive SysClkSource
  | HSI
  | HSE
  | PLL
  deriving DecidableEq, Repr

/-- Modelled from the spec: the vendor constant `LL_RCC_SYS_CLKSOURCE_PLL`,
which is not declared in this header: the PLL as system clock. -/
def LL_RCC_SYS_CLKSOURCE_PLL : SysClkSource := SysClkSource.PLL

/-- Modelled from the spec: the vendor constant
`LL_RCC_SYS_CLKSOURCE_STATUS_PLL`, which is not declared in this header: the
status value that reports the PLL as system clock (`SWS` field, bits 3:2, equal
to 3). -/
def LL_RCC_SYS_CLKSOURCE_STATUS_PLL : Nat := 0xC

/-- The hardware accesses of `bl_clock_config`, one constructor for each vendor
call; a status read carries the value that was read. -/
inductive Event
  | FLASH_SetLatency (latency : Nat)
  | FLASH_GetLatency (value : Nat)
  | PWR_SetRegulVoltageScaling (scale : Nat)
  | PWR_IsActiveFlag_VOS (value : Nat)
  | RCC_HSI_Enable
  | RCC_HSI_IsReady (value : Nat)
  | RCC_PLL_ConfigDomain_SYS (source : PLLSource) (pllm plln pllr : Nat)
  | RCC_PLL_EnableDomain_SYS
  | RCC_PLL_Enable
  | RCC_PLL_IsReady (value : Nat)
  | RCC_SetSysClkSource (source : SysClkSource)
  | RCC_GetSysClkSource (value : Nat)
  | RCC_SetAHBPrescaler (prescaler : Nat)
  | RCC_SetAPB1Prescaler (prescaler : Nat)
  | RCC_SetAPB2Prescaler (prescaler : Nat)
  deriving DecidableEq, Repr

/-- The hardware as an oracle: for each status register, the value that its
`k`-th read returns. -/
structure Oracle where
  flashLatency : Nat → Nat
  vosFlag : Nat → Nat
  hsiReady : Nat → Nat
  pllReady : Nat → Nat
  sysClkSource : Nat → Nat

/-- An execution in progress: the accesses made so far in program order, the
loop iterations still allowed, and whether control is still advancing (`false`
once the allowance ran out inside a busy-wait loop). -/
structure Exec where
  trace : List Event
  fuel : Nat
  running : Bool

/-- A vendor call that writes to the hardware. -/
def Exec.emit (x : Exec) (e : Event) : Exec :=
  if x.running then { x with trace := x.trace ++ [e] } else x

/-- The loop `while (read() != awaited) ;` from the `k`-th read of the stream
`rd` on, with `fuel` iterations allowed. -/
def pollLoop (rd : Nat → Nat) (ev : Nat → Event) (awaited : Nat) :
    Nat → Nat → List Event → Exec
  | 0, _, tr => { trace := tr, fuel := 0, running := false }
  | fuel + 1, k, tr =>
    if rd k = awaited then { trace := tr ++ [ev (rd k)], fuel := fuel, running := true }
    else pollLoop rd ev awaited fuel (k + 1) (tr ++ [ev (rd k)])

/-- The loop `while (read() != awaited) ;` as a step of an execution. -/
def Exec.poll (x : Exec) (rd : Nat → Nat) (ev : Nat → Event) (awaited : Nat) : Exec :=
  if x.running then pollLoop rd ev awaited x.fuel 0 x.trace else x

/-- Lines 101 to 116 of `bl_clock_config()`: everything up to and including the
wait for the PLL, before the system clock is switched. -/
def bl_clock_config_before_switch (o : Oracle) (fuel : Nat) : Exec :=
  let x : Exec := { trace := [], fuel := fuel, running := true }
  let x := x.emit (Event.FLASH_SetLatency LL_FLASH_LATENCY_4)
  let x := x.poll o.flashLatency Event.FLASH_GetLatency LL_FLASH_LATENCY_4
  let x := x.emit (Event.PWR_SetRegulVoltageScaling LL_PWR_REGU_VOLTAGE_SCALE1)
  let x := x.poll o.vosFlag Event.PWR_IsActiveFlag_VOS 0
  let x := x.emit Event.RCC_HSI_Enable
  let x := x.poll o.hsiReady Event.RCC_HSI_IsReady 1
  let x := x.emit
    (Event.RCC_PLL_ConfigDomain_SYS LL_RCC_PLLSOURCE_HSI LL_RCC_PLLM_DIV_2 40 LL_RCC_PLLR_DIV_2)
  let x := x.emit Event.RCC_PLL_EnableDomain_SYS
  let x := x.emit Event.RCC_PLL_Enable
  x.poll o.pllReady Event.RCC_PLL_IsReady 1

/-- Embeds `bl_clock_config()`, run against the oracle `o` with `fuel` loop iterations
allowed; it has returned when `running` is still `true` at the end. -/
def bl_clock_config (o : Oracle) (fuel : Nat) : Exec :=
  let x := bl_clock_config_before_switch o fuel
  let x := x.emit (Event.RCC_SetSysClkSource LL_RCC_SYS_CLKSOURCE_PLL)
  let x := x.poll o.sysClkSource Event.RCC_GetSysClkSource LL_RCC_SYS_CLKSOURCE_STATUS_PLL
  let x := x.emit (Event.RCC_SetAHBPrescaler LL_RCC_SYSCLK_DIV_1)
  let x := x.emit (Event.RCC_SetAPB1Prescaler LL_RCC_APB1_DIV_1)
  x.emit (Event.RCC_SetAPB2Prescaler LL_RCC_APB2_DIV_1)

/-- The system-clock switch `LL_RCC_SetSysClkSource(LL_RCC_SYS_CLKSOURCE_PLL)`. -/
def switchEvent : Event := Event.RCC_SetSysClkSource LL_RCC_SYS_CLKSOURCE_PLL

/-- The accesses that must precede the system-clock switch, in order: latency
written as 4 and read back as 4, voltage range 1 requested and the VOS flag
read as 0, HSI read as ready, PLL read as ready. -/
def switchPrerequisites : List Event :=
  [Event.FLASH_SetLatency LL_FLASH_LATENCY_4,
   Event.FLASH_GetLatency LL_FLASH_LATENCY_4,
   Event.PWR_SetRegulVoltageScaling LL_PWR_REGU_VOLTAGE_SCALE1,
   Event.PWR_IsActiveFlag_VOS 0,
   Event.RCC_HSI_IsReady 1,
   Event.RCC_PLL_IsReady 1]

/-- Modelled from the spec: the clock control state that `bl_clock_config`
changes. The registers themselves are behind the vendor calls, which are not in
this header; the fields are what those calls set: the internal oscillator
enable, the PLL source, dividers, multiplier and enables, the system clock
source requested by the switch, the source in use, and the bus prescalers. -/
structure RCCState where
  hsiOn : Bool
  pllSource : PLLSource
  pllm : Nat
  plln : Nat
  pllr : Nat
  pllDomainSys : Bool
  pllOn : Bool
  requested : SysClkSource
  sysClkSource : SysClkSource
  ahbPrescaler : Nat
  apb1Prescaler : Nat
  apb2Prescaler : Nat

/-- Modelled from the spec: the clock control state at reset. Spec 4.1: the MCU
starts on "its default internal oscillator": HSI is on and is the system clock,
the PLL has no source and is off (dividers at their reset values), the bus
prescalers are 1. -/
def RCCState.reset : RCCState :=
  { hsiOn := true, pllSource := PLLSource.NONE, pllm := 1, plln := 16, pllr := 2,
    pllDomainSys := false, pllOn := false, requested := SysClkSource.HSI,
    sysClkSource := SysClkSource.HSI, ahbPrescaler := 1, apb1Prescaler := 1,
    apb2Prescaler := 1 }

/-- The effect of one hardware access on the clock control state. A write
stores its argument. The system clock source in use becomes the PLL when the
PLL has been requested by `LL_RCC_SetSysClkSource` and the status is read back
as PLL; every other status read, the flash latency and the voltage scaling leave
the clock control state as it is. -/
def applyEvent (s : RCCState) : Event → RCCState
  | Event.RCC_HSI_Enable => { s with hsiOn := true }
  | Event.RCC_PLL_ConfigDomain_SYS source pllm plln pllr =>
    { s with pllSource := source, pllm := pllm, plln := plln, pllr := pllr }
  | Event.RCC_PLL_EnableDomain_SYS => { s with pllDomainSys := true }
  | Event.RCC_PLL_Enable => { s with pllOn := true }
  | Event.RCC_SetSysClkSource source => { s with requested := source }
  | Event.RCC_GetSysClkSource value =>
    if value = LL_RCC_SYS_CLKSOURCE_STATUS_PLL ∧ s.requested = SysClkSource.PLL then
      { s with sysClkSource := SysClkSource.PLL }
    else s
  | Event.RCC_SetAHBPrescaler p => { s with ahbPrescaler := p }
  | Event.RCC_SetAPB1Prescaler p => { s with apb1Prescaler := p }
  | Event.RCC_SetAPB2Prescaler p => { s with apb2Prescaler := p }
  | _ => s

/-- The clock control state after the accesses of a trace, from reset. -/
def rccAfter (tr : List Event) : RCCState := tr.foldl applyEvent RCCState.reset

/-- The frequency at the PLL input: `HSI_VALUE` when the source is the internal
oscillator and it is on; this header starts no other source. -/
def RCCState.pllInputHz (s : RCCState) : Nat :=
  match s.pllSource with
  | PLLSource.HSI => if s.hsiOn then HSI_VALUE else 0
  | _ => 0

/-- The PLL `R` output: input / PLLM * PLLN / PLLR when the PLL and its system
clock output are enabled. -/
def RCCState.pllRHz (s : RCCState) : Nat :=
  if s.pllOn && s.pllDomainSys then s.pllInputHz / s.pllm * s.plln / s.pllr else 0

/-- The system clock: the clock of the source in use. -/
def RCCState.sysclkHz (s : RCCState) : Nat :=
  match s.sysClkSource with
  | SysClkSource.HSI => if s.hsiOn then HSI_VALUE else 0
  | SysClkSource.HSE => 0
  | SysClkSource.PLL => s.pllRHz

/-- The input clock of a timer on APB1: the bus clock, doubled when the APB1
prescaler is not 1. -/
def RCCState.timerHz (s : RCCState) : Nat :=
  let pclk1 := s.sysclkHz / s.ahbPrescaler / s.apb1Prescaler
  if s.apb1Prescaler = 1 then pclk1 else 2 * pclk1

/-- The rate in Hz at which `BL_TIMER` counts: its input clock divided by the
prescaler register plus one while its bus clock is on and the counter is
enabled, and 0 otherwise. -/
def timerCountRateHz (s : RCCState) (m : Machine) : Nat :=
  if m.tim2_clock && m.TIM2.counterEnabled then s.timerHz / (m.TIM2.PSC + 1) else 0

/-- No step of the frequency computation leaves a remainder. -/
def RCCState.exact (s : RCCState) (psc : Nat) : Prop :=
  s.pllInputHz % s.pllm = 0 ∧ (s.pllInputHz / s.pllm * s.plln) % s.pllr = 0 ∧
  s.sysclkHz % s.ahbPrescaler = 0 ∧ (s.sysclkHz / s.ahbPrescaler) % s.apb1Prescaler = 0 ∧
  s.timerHz % (psc + 1) = 0

/-- The clock control state that `bl_clock_config` is to leave behind: HSI on,
PLL fed from HSI with PLLM 2, PLLN 40, PLLR 2 and enabled, PLL requested and in
use as system clock, bus prescalers 1. -/
def configuredRCC : RCCState :=
  { hsiOn := true, pllSource := PLLSource.HSI, pllm := 2, plln := 40, pllr := 2,
    pllDomainSys := true, pllOn := true, requested := SysClkSource.PLL,
    sysClkSource := SysClkSource.PLL, ahbPrescaler := 1, apb1Prescaler := 1,
    apb2Prescaler := 1 }

/-- An oracle whose status registers report the awaited value at the first read. -/
def readyOracle : Oracle :=
  { flashLatency := fun _ => LL_FLASH_LATENCY_4, vosFlag := fun _ => 0, hsiReady := fun _ => 1,
    pllReady := fun _ => 1, sysClkSource := fun _ => LL_RCC_SYS_CLKSOURCE_STATUS_PLL }

end G431

/-! ## Bit-level facts about the machine arithmetic -/

theorem bitsBelow_lt (f : Nat → Bool) (k : Nat) : bitsBelow f k < 2 ^ k := by
  induction k with
  | zero => simp [bitsBelow]
  | succ k ih =>
    simp only [bitsBelow]
    have : 2 ^ (k + 1) = 2 ^ k + 2 ^ k := by rw [pow_succ]; omega
    split <;> omega

theorem testBit_bitsBelow (f : Nat → Bool) (k i : Nat) :
    (bitsBelow f k).testBit i = (decide (i < k) && f i) := by
  induction k with
  | zero => simp [bitsBelow]
  | succ k ih =>
    have hlt := bitsBelow_lt f k
    simp only [bitsBelow]
    rcases Nat.lt_trichotomy i k with h | h | h
    · have : (bitsBelow f k + if f k = true then 2 ^ k else 0) % 2 ^ k = bitsBelow f k := by
        split
        · rw [Nat.add_mod_right, Nat.mod_eq_of_lt hlt]
        · rw [Nat.add_zero, Nat.mod_eq_of_lt hlt]
      have h2 := Nat.testBit_mod_two_pow (bitsBelow f k + if f k = true then 2 ^ k else 0) k i
      rw [this, ih] at h2
      have hk : i < k + 1 := by omega
      simp only [h, hk, decide_True, Bool.true_and] at h2 ⊢
      exact h2.symm
    · subst h
      cases hf : f i
      · simp [Nat.testBit_lt_two_pow hlt]
      · simp only [if_true, lt_add_iff_pos_right, zero_lt_one, decide_True, Bool.and_self]
        rw [Nat.add_comm]
        rw [Nat.testBit_two_pow_add_eq]
        simp [Nat.testBit_lt_two_pow hlt]
    · have hlt2 : (bitsBelow f k + if f k = true then 2 ^ k else 0) < 2 ^ i := by
        have h1 : 2 ^ (k + 1) ≤ 2 ^ i := Nat.pow_le_pow_right (by decide) h
        have : 2 ^ (k + 1) = 2 ^ k + 2 ^ k := by rw [pow_succ]; omega
        split <;> omega
      rw [Nat.testBit_lt_two_pow hlt2]
      have : ¬ i < k + 1 := by omega
      simp [this]

theorem testBit_of_lt_of_le {x a i : Nat} (hx : x < 2 ^ a) (hi : a ≤ i) :
    x.testBit i = false :=
  Nat.testBit_lt_two_pow (lt_of_lt_of_le hx (Nat.pow_le_pow_right (by decide) hi))

theorem testBit_u32 (x i : Nat) : (u32 x).testBit i = (decide (i < 32) && x.testBit i) := by
  rw [u32, Nat.testBit_mod_two_pow]

theorem testBit_not32 (x i : Nat) :
    (not32 x).testBit i = (decide (i < 32) && !x.testBit i) := by
  have h : (0xFFFFFFFF : Nat) = 2 ^ 32 - 1 := by norm_num
  rw [not32, h, Nat.testBit_xor, Nat.testBit_two_pow_sub_one, testBit_u32]
  by_cases hi : i < 32 <;> simp [hi]

theorem testBit_mul_two_pow (v s i : Nat) :
    (v * 2 ^ s).testBit i = (decide (s ≤ i) && v.testBit (i - s)) := by
  rw [Nat.mul_comm, Nat.testBit_mul_pow_two]

theorem and_two_pow (x j : Nat) : x &&& 2 ^ j = if x.testBit j then 2 ^ j else 0 := by
  apply Nat.eq_of_testBit_eq
  intro i
  rw [Nat.testBit_and]
  by_cases h : j = i
  · subst h
    cases hx : x.testBit j <;> simp [Nat.testBit_two_pow]
  · cases hx : x.testBit j <;> simp [h, hx, Nat.testBit_two_pow]

theorem testBit_fifteen (j : Nat) : Nat.testBit 15 j = decide (j < 4) := by
  have h : (15 : Nat) = 2 ^ 4 - 1 := by norm_num
  rw [h, Nat.testBit_two_pow_sub_one]

/-- Bit `i` of the word written back by the read-modify-write of the 4-bit field
at bit offset `s`: the bits of `v` inside the field, the old bits outside. -/
theorem testBit_field_update (r v s i : Nat) (hs : s + 4 ≤ 32) (hv : v ≤ 15) :
    (u32 ((r &&& not32 (mul32 0xf (2 ^ s))) ||| mul32 v (2 ^ s))).testBit i =
      if s ≤ i ∧ i < s + 4 then v.testBit (i - s) else (decide (i < 32) && r.testBit i) := by
  have hv4 : ∀ j, 4 ≤ j → v.testBit j = false := fun j hj =>
    testBit_of_lt_of_le (show v < 2 ^ 4 by norm_num; omega) hj
  simp only [testBit_u32, Nat.testBit_or, Nat.testBit_and, testBit_not32, mul32,
    testBit_mul_two_pow, testBit_fifteen]
  by_cases h32 : i < 32 <;> by_cases h1 : s ≤ i <;> by_cases h2 : i < s + 4
  all_goals first
    | omega
    | (have h3 : i - s < 4 := by omega
       simp [h32, h1, h2, h3])
    | (have h3 : ¬ i - s < 4 := by omega
       simp [h32, h1, h2, h3, hv4 (i - s) (by omega)])

/-- The field written by the read-modify-write holds exactly `v`. -/
theorem field_update_self (r v s : Nat) (hs : s + 4 ≤ 32) (hv : v ≤ 15) :
    (u32 ((r &&& not32 (mul32 0xf (2 ^ s))) ||| mul32 v (2 ^ s)) >>> s) % 16 = v := by
  have hv4 : ∀ j, 4 ≤ j → v.testBit j = false := fun j hj =>
    testBit_of_lt_of_le (show v < 2 ^ 4 by norm_num; omega) hj
  have h16 : (16 : Nat) = 2 ^ 4 := by norm_num
  rw [h16]
  apply Nat.eq_of_testBit_eq
  intro j
  rw [Nat.testBit_mod_two_pow, Nat.testBit_shiftRight, testBit_field_update r v s (s + j) hs hv]
  by_cases hj : j < 4
  · have : s ≤ s + j ∧ s + j < s + 4 := by omega
    simp [hj, this]
  · simp [hj, hv4 j (by omega)]

/-- A 4-bit field disjoint from the one written keeps its value. -/
theorem field_update_other (r v s t : Nat) (hs : s + 4 ≤ 32) (hv : v ≤ 15)
    (ht : t + 4 ≤ 32) (hd : t + 4 ≤ s ∨ s + 4 ≤ t) :
    (u32 ((r &&& not32 (mul32 0xf (2 ^ s))) ||| mul32 v (2 ^ s)) >>> t) % 16 = (r >>> t) % 16 := by
  have h16 : (16 : Nat) = 2 ^ 4 := by norm_num
  rw [h16]
  apply Nat.eq_of_testBit_eq
  intro j
  rw [Nat.testBit_mod_two_pow, Nat.testBit_mod_two_pow, Nat.testBit_shiftRight,
    Nat.testBit_shiftRight, testBit_field_update r v s (t + j) hs hv]
  by_cases hj : j < 4
  · have h1 : ¬ (s ≤ t + j ∧ t + j < s + 4) := by omega
    have h2 : t + j < 32 := by omega
    simp [hj, h1, h2]
  · simp [hj]

/-- Writing the same value into the same field twice is the same as once. -/
theorem field_update_twice (r v s : Nat) (hs : s + 4 ≤ 32) (hv : v ≤ 15) :
    u32 ((u32 ((r &&& not32 (mul32 0xf (2 ^ s))) ||| mul32 v (2 ^ s)) &&&
        not32 (mul32 0xf (2 ^ s))) ||| mul32 v (2 ^ s)) =
      u32 ((r &&& not32 (mul32 0xf (2 ^ s))) ||| mul32 v (2 ^ s)) := by
  apply Nat.eq_of_testBit_eq
  intro i
  rw [testBit_field_update _ v s i hs hv, testBit_field_update r v s i hs hv]
  by_cases h : s ≤ i ∧ i < s + 4
  · simp [h]
  · by_cases h32 : i < 32 <;> simp [h, h32]

namespace V203

theorem GPIO_PIN_eq (n : Nat) (hn : n ≤ 15) : GPIO_PIN n = 2 ^ n := by
  interval_cases n <;> rfl

theorem shiftedPin_GPIO_PIN (n : Nat) (hn : n ≤ 15) :
    shiftedPin (GPIO_PIN n) = 2 ^ (n % 8) := by
  interval_cases n <;> rfl

theorem cfgrOf_GPIO_PIN (n : Nat) (hn : n ≤ 15) :
    cfgrOf (GPIO_PIN n) = cfgRegOf n := by
  interval_cases n <;> rfl

theorem mulOf_two_pow (k : Nat) (hk : k ≤ 7) : mulOf (2 ^ k) = 2 ^ (4 * k) := by
  interval_cases k <;> rfl

theorem writes_write (p : GPIO_TypeDef) (r : Reg) (v : Nat) :
    (p.write r v).writes = p.writes ++ [(r, u32 v)] := by
  cases r <;> rfl

theorem pads_write (p : GPIO_TypeDef) (r : Reg) (v : Nat) : (p.write r v).pads = p.pads := by
  cases r <;> rfl

theorem read_cfgRegOf (p : GPIO_TypeDef) (n : Nat) :
    p.read (cfgRegOf n) = p.stored (cfgRegOf n) := by
  unfold cfgRegOf; split <;> rfl

theorem stored_write_cfgRegOf (p : GPIO_TypeDef) (n v : Nat) :
    (p.write (cfgRegOf n) v).stored (cfgRegOf n) = u32 v := by
  unfold cfgRegOf; split <;> rfl

theorem stored_write_otherCfgRegOf (p : GPIO_TypeDef) (n v : Nat) :
    (p.write (cfgRegOf n) v).stored (otherCfgRegOf n) = p.stored (otherCfgRegOf n) := by
  unfold cfgRegOf otherCfgRegOf; split <;> rfl

theorem OUTDR_write_cfgRegOf (p : GPIO_TypeDef) (n v : Nat) :
    (p.write (cfgRegOf n) v).OUTDR = p.OUTDR := by
  unfold cfgRegOf; split <;> rfl

theorem stored_cfgRegOf_write_OUTDR (p : GPIO_TypeDef) (n v : Nat) :
    (p.write Reg.OUTDR v).stored (cfgRegOf n) = p.stored (cfgRegOf n) := by
  unfold cfgRegOf; split <;> rfl

theorem stored_otherCfgRegOf_write_OUTDR (p : GPIO_TypeDef) (n v : Nat) :
    (p.write Reg.OUTDR v).stored (otherCfgRegOf n) = p.stored (otherCfgRegOf n) := by
  unfold otherCfgRegOf; split <;> rfl

/-- The field of line `j` after the read-modify-write of the field of another
line `n` in the configuration register of `n`. -/
theorem cfgField_write_other (p : GPIO_TypeDef) (n j v : Nat) (hn : n ≤ 15) (hj : j ≤ 15)
    (hjn : j ≠ n) (hv : v ≤ 15) :
    cfgField (p.write (cfgRegOf n)
      ((p.stored (cfgRegOf n) &&& not32 (mul32 0xf (2 ^ (4 * (n % 8))))) |||
        mul32 v (2 ^ (4 * (n % 8))))) j = cfgField p j := by
  have hs : 4 * (n % 8) + 4 ≤ 32 := by omega
  have ht : 4 * (j % 8) + 4 ≤ 32 := by omega
  unfold cfgField
  by_cases hsame : (j < 8 ↔ n < 8)
  · have hreg : cfgRegOf j = cfgRegOf n := by
      unfold cfgRegOf
      by_cases h : n < 8
      · simp [h, hsame.mpr h]
      · have : ¬ j < 8 := fun hj8 => h (hsame.mp hj8)
        simp [h, this]
    rw [hreg, stored_write_cfgRegOf]
    exact field_update_other _ v _ _ hs hv ht (by omega)
  · have hreg : cfgRegOf j = otherCfgRegOf n := by
      unfold cfgRegOf otherCfgRegOf
      by_cases h : n < 8
      · have : ¬ j < 8 := fun hj8 => hsame ⟨fun _ => h, fun _ => hj8⟩
        simp [h, this]
      · have : j < 8 := by
          by_contra hj8
          exact hsame ⟨fun h' => absurd h' hj8, fun h' => absurd h' h⟩
        simp [h, this]
    rw [hreg, stored_write_otherCfgRegOf]

/-- On a valid pin identifier `gpio_mode_set_output` is one write, to the
configuration register of the line, of the old word with the line's field
replaced. -/
theorem gpio_mode_set_output_eq (n m : Nat) (hn : n ≤ 15) (p : GPIO_TypeDef) :
    gpio_mode_set_output (GPIO_PIN n) m p =
      p.write (cfgRegOf n)
        ((p.stored (cfgRegOf n) &&& not32 (mul32 0xf (2 ^ (4 * (n % 8))))) |||
          mul32 m (2 ^ (4 * (n % 8)))) := by
  have hk : n % 8 ≤ 7 := by omega
  simp only [gpio_mode_set_output, shiftedPin_GPIO_PIN n hn, cfgrOf_GPIO_PIN n hn,
    mulOf_two_pow (n % 8) hk, read_cfgRegOf]

/-- C10: on v203, for a valid pin identifier `GPIO_PIN n` (`n ≤ 15`), a drive
value `m ≤ 15` and any prior register values, `gpio_mode_set_output` sets the
4-bit field of line `n` (bit offset `4 * (n % 8)` of `CFGLR` for `n < 8`, of
`CFGHR` otherwise) to exactly `m`, leaves the field of every other line
unchanged, performs exactly one register write, to that configuration register,
so that the other configuration register and `OUTDR` are neither written nor
changed, and applying it twice leaves every register as applying it once. -/
theorem gpio_mode_set_output_spec (n m : Nat) (hn : n ≤ 15) (hm : m ≤ 15)
    (p : GPIO_TypeDef) :
    cfgField (gpio_mode_set_output (GPIO_PIN n) m p) n = m ∧
    (∀ j, j ≤ 15 → j ≠ n →
      cfgField (gpio_mode_set_output (GPIO_PIN n) m p) j = cfgField p j) ∧
    (gpio_mode_set_output (GPIO_PIN n) m p).writes =
      p.writes ++ [(cfgRegOf n, (gpio_mode_set_output (GPIO_PIN n) m p).stored (cfgRegOf n))] ∧
    (gpio_mode_set_output (GPIO_PIN n) m p).stored (otherCfgRegOf n) =
      p.stored (otherCfgRegOf n) ∧
    (gpio_mode_set_output (GPIO_PIN n) m p).OUTDR = p.OUTDR ∧
    (∀ r, (gpio_mode_set_output (GPIO_PIN n) m (gpio_mode_set_output (GPIO_PIN n) m p)).stored r =
      (gpio_mode_set_output (GPIO_PIN n) m p).stored r) := by
  have hs : 4 * (n % 8) + 4 ≤ 32 := by omega
  rw [gpio_mode_set_output_eq n m hn (gpio_mode_set_output (GPIO_PIN n) m p),
    gpio_mode_set_output_eq n m hn p]
  refine ⟨?_, ?_, ?_, stored_write_otherCfgRegOf _ _ _, OUTDR_write_cfgRegOf _ _ _, ?_⟩
  · unfold cfgField
    rw [stored_write_cfgRegOf]
    exact field_update_self _ m _ hs hm
  · intro j hj hjn
    exact cfgField_write_other p n j m hn hj hjn hm
  · rw [writes_write, stored_write_cfgRegOf]
  · intro r
    have key := field_update_twice (p.stored (cfgRegOf n)) m (4 * (n % 8)) hs hm
    rw [stored_write_cfgRegOf]
    generalize hv : (p.stored (cfgRegOf n) &&& not32 (mul32 15 (2 ^ (4 * (n % 8)))) |||
      mul32 m (2 ^ (4 * (n % 8)))) = v at key ⊢
    unfold cfgRegOf
    by_cases h8 : n < 8
    · simp only [h8, if_true]
      cases r <;> simp only [GPIO_TypeDef.write, GPIO_TypeDef.stored]
      exact key
    · simp only [h8, if_false]
      cases r <;> simp only [GPIO_TypeDef.write, GPIO_TypeDef.stored]
      exact key

theorem read_OUTDR (p : GPIO_TypeDef) : p.read Reg.OUTDR = p.OUTDR := rfl

/-- On a valid pin identifier `gpio_mode_set_input` is, for each pull value, the
sequence of writes below; `pin` in the `OUTDR` statements is the shifted one. -/
theorem gpio_mode_set_input_eq (n pull : Nat) (hn : n ≤ 15) (p : GPIO_TypeDef) :
    gpio_mode_set_input (GPIO_PIN n) pull p =
      if pull = GPIO_PULL_NONE then
        p.write (cfgRegOf n)
          ((p.stored (cfgRegOf n) &&& not32 (mul32 0xf (2 ^ (4 * (n % 8))))) |||
            mul32 0x4 (2 ^ (4 * (n % 8))))
      else if pull = GPIO_PULL_UP then
        (p.write Reg.OUTDR (p.OUTDR ||| 2 ^ (n % 8))).write (cfgRegOf n)
          ((p.stored (cfgRegOf n) &&& not32 (mul32 0xf (2 ^ (4 * (n % 8))))) |||
            mul32 0x8 (2 ^ (4 * (n % 8))))
      else if pull = GPIO_PULL_DOWN then
        (p.write Reg.OUTDR (p.OUTDR &&& not32 (2 ^ (n % 8)))).write (cfgRegOf n)
          ((p.stored (cfgRegOf n) &&& not32 (mul32 0xf (2 ^ (4 * (n % 8))))) |||
            mul32 0x8 (2 ^ (4 * (n % 8))))
      else p := by
  have hk : n % 8 ≤ 7 := by omega
  simp only [gpio_mode_set_input, shiftedPin_GPIO_PIN n hn, cfgrOf_GPIO_PIN n hn,
    mulOf_two_pow (n % 8) hk, read_cfgRegOf, read_OUTDR]

theorem cfgRegOf_ne_other (n : Nat) : cfgRegOf n ≠ otherCfgRegOf n := by
  unfold cfgRegOf otherCfgRegOf; split <;> decide

theorem OUTDR_ne_other (n : Nat) : Reg.OUTDR ≠ otherCfgRegOf n := by
  unfold otherCfgRegOf; split <;> decide

/-- What `gpio_mode_set_input` does to the configuration registers, stated for
the final write applied to a port `p1` reached from `p` by writes `ws` that left
the other configuration register alone. -/
theorem cfg_write_spec (p p1 : GPIO_TypeDef) (n v : Nat) (hv : v ≤ 15)
    (ws : List (Reg × Nat)) (h2 : p1.stored (otherCfgRegOf n) = p.stored (otherCfgRegOf n))
    (h3 : p1.writes = p.writes ++ ws) (h4 : ∀ w ∈ ws, w.1 ≠ otherCfgRegOf n) :
    cfgField (p1.write (cfgRegOf n)
      ((p.stored (cfgRegOf n) &&& not32 (mul32 0xf (2 ^ (4 * (n % 8))))) |||
        mul32 v (2 ^ (4 * (n % 8))))) n = v ∧
    (∀ i, i < 32 → ¬ (4 * (n % 8) ≤ i ∧ i < 4 * (n % 8) + 4) →
      ((p1.write (cfgRegOf n)
        ((p.stored (cfgRegOf n) &&& not32 (mul32 0xf (2 ^ (4 * (n % 8))))) |||
          mul32 v (2 ^ (4 * (n % 8))))).stored (cfgRegOf n)).testBit i =
        (p.stored (cfgRegOf n)).testBit i) ∧
    (p1.write (cfgRegOf n)
      ((p.stored (cfgRegOf n) &&& not32 (mul32 0xf (2 ^ (4 * (n % 8))))) |||
        mul32 v (2 ^ (4 * (n % 8))))).stored (otherCfgRegOf n) = p.stored (otherCfgRegOf n) ∧
    (∃ ws', (p1.write (cfgRegOf n)
      ((p.stored (cfgRegOf n) &&& not32 (mul32 0xf (2 ^ (4 * (n % 8))))) |||
        mul32 v (2 ^ (4 * (n % 8))))).writes = p.writes ++ ws' ∧
      ∀ w ∈ ws', w.1 ≠ otherCfgRegOf n) := by
  have hs : 4 * (n % 8) + 4 ≤ 32 := by omega
  refine ⟨?_, ?_, ?_, ?_⟩
  · unfold cfgField
    rw [stored_write_cfgRegOf]
    exact field_update_self _ v _ hs hv
  · intro i hi hout
    rw [stored_write_cfgRegOf, testBit_field_update _ v _ i hs hv]
    simp [hout, hi]
  · rw [stored_write_otherCfgRegOf, h2]
  · rw [writes_write, h3, List.append_assoc]
    refine ⟨_, rfl, ?_⟩
    · intro w hw
      rcases List.mem_append.mp hw with hw | hw
      · exact h4 w hw
      · rw [List.mem_singleton] at hw
        subst hw
        exact cfgRegOf_ne_other n

/-- C4: on v203, for a valid pin identifier `GPIO_PIN n` (`n ≤ 15`), a pull in
`{GPIO_PULL_NONE, GPIO_PULL_UP, GPIO_PULL_DOWN}` and any prior register values,
`gpio_mode_set_input` makes the 4-bit field of line `n` (bit offset
`4 * (n % 8)` of `CFGLR` for `n < 8`, of `CFGHR` otherwise) equal to `0x4` for
`GPIO_PULL_NONE` and `0x8` for the two pulls, keeps every other bit of that
32-bit register, neither writes nor changes the other configuration register,
and `pin*pin*pin*pin` equals `1 << (4 * (n % 8))` with the exact product below
`2 ^ 32`. -/
theorem gpio_mode_set_input_spec (n pull : Nat) (hn : n ≤ 15)
    (hpull : pull = GPIO_PULL_NONE ∨ pull = GPIO_PULL_UP ∨ pull = GPIO_PULL_DOWN)
    (p : GPIO_TypeDef) :
    cfgField (gpio_mode_set_input (GPIO_PIN n) pull p) n =
      (if pull = GPIO_PULL_NONE then 0x4 else 0x8) ∧
    (∀ i, i < 32 → ¬ (4 * (n % 8) ≤ i ∧ i < 4 * (n % 8) + 4) →
      ((gpio_mode_set_input (GPIO_PIN n) pull p).stored (cfgRegOf n)).testBit i =
        (p.stored (cfgRegOf n)).testBit i) ∧
    (gpio_mode_set_input (GPIO_PIN n) pull p).stored (otherCfgRegOf n) =
      p.stored (otherCfgRegOf n) ∧
    (∃ ws, (gpio_mode_set_input (GPIO_PIN n) pull p).writes = p.writes ++ ws ∧
      ∀ w ∈ ws, w.1 ≠ otherCfgRegOf n) ∧
    mulOf (shiftedPin (GPIO_PIN n)) = 1 <<< (4 * (n % 8)) ∧
    shiftedPin (GPIO_PIN n) * shiftedPin (GPIO_PIN n) * shiftedPin (GPIO_PIN n) *
      shiftedPin (GPIO_PIN n) < 2 ^ 32 := by
  have hk : n % 8 ≤ 7 := by omega
  have hmul : mulOf (shiftedPin (GPIO_PIN n)) = 1 <<< (4 * (n % 8)) := by
    rw [shiftedPin_GPIO_PIN n hn, mulOf_two_pow _ hk, Nat.shiftLeft_eq, Nat.one_mul]
  have hprod : shiftedPin (GPIO_PIN n) * shiftedPin (GPIO_PIN n) * shiftedPin (GPIO_PIN n) *
      shiftedPin (GPIO_PIN n) < 2 ^ 32 := by
    rw [shiftedPin_GPIO_PIN n hn]
    generalize n % 8 = k at hk
    interval_cases k <;> norm_num
  have hOUT : ∀ v, ∀ w ∈ [(Reg.OUTDR, u32 v)], w.1 ≠ otherCfgRegOf n := by
    intro v w hw
    rw [List.mem_singleton] at hw
    subst hw
    exact OUTDR_ne_other n
  rw [gpio_mode_set_input_eq n pull hn p]
  rcases hpull with h | h | h
  · subst h
    simp only [if_true]
    obtain ⟨a, b, c, d⟩ := cfg_write_spec p p n 4 (by decide) [] rfl
      (List.append_nil _).symm (by simp)
    exact ⟨a, b, c, d, hmul, hprod⟩
  · subst h
    have h10 : ¬ GPIO_PULL_UP = GPIO_PULL_NONE := by decide
    simp only [h10, if_false, if_true]
    obtain ⟨a, b, c, d⟩ := cfg_write_spec p (p.write Reg.OUTDR (p.OUTDR ||| 2 ^ (n % 8))) n 8
      (by decide) _ (stored_otherCfgRegOf_write_OUTDR _ _ _) (writes_write _ _ _) (hOUT _)
    exact ⟨a, b, c, d, hmul, hprod⟩
  · subst h
    have h20 : ¬ GPIO_PULL_DOWN = GPIO_PULL_NONE := by decide
    have h21 : ¬ GPIO_PULL_DOWN = GPIO_PULL_UP := by decide
    simp only [h20, h21, if_false, if_true]
    obtain ⟨a, b, c, d⟩ := cfg_write_spec p (p.write Reg.OUTDR (p.OUTDR &&& not32 (2 ^ (n % 8))))
      n 8 (by decide) _ (stored_otherCfgRegOf_write_OUTDR _ _ _) (writes_write _ _ _) (hOUT _)
    exact ⟨a, b, c, d, hmul, hprod⟩

/-- Witness for C4: line 12 with a pull-down on a port with all lines floating. -/
theorem gpio_mode_set_input_spec_witness :
    cfgField (gpio_mode_set_input (GPIO_PIN 12) GPIO_PULL_DOWN
      ⟨0x44444444, 0x44444444, 0, 0, []⟩) 12 =
      (if GPIO_PULL_DOWN = GPIO_PULL_NONE then 0x4 else 0x8) :=
  (gpio_mode_set_input_spec 12 GPIO_PULL_DOWN (by decide) (Or.inr (Or.inr rfl))
    ⟨0x44444444, 0x44444444, 0, 0, []⟩).1

/-- C3, at the input where the code departs from it: `GPIO_PIN(8)` with
`GPIO_PULL_UP` on a port whose output register is 0. The `OUTDR` write uses the
pin value already shifted right by 8, so bit 0 is set, bit 8 stays 0, and the
two writes are `OUTDR` then `CFGHR`. -/
theorem gpio_mode_set_input_pull_up_line8 :
    (gpio_mode_set_input (GPIO_PIN 8) GPIO_PULL_UP ⟨0x44444444, 0x44444444, 0, 0, []⟩).OUTDR = 1 ∧
    (gpio_mode_set_input (GPIO_PIN 8) GPIO_PULL_UP
      ⟨0x44444444, 0x44444444, 0, 0, []⟩).OUTDR.testBit 8 = false ∧
    (gpio_mode_set_input (GPIO_PIN 8) GPIO_PULL_UP
      ⟨0x44444444, 0x44444444, 0, 0, []⟩).OUTDR.testBit 0 = true ∧
    (gpio_mode_set_input (GPIO_PIN 8) GPIO_PULL_UP ⟨0x44444444, 0x44444444, 0, 0, []⟩).writes =
      [(Reg.OUTDR, 1), (Reg.CFGHR, 0x44444448)] := by
  refine ⟨rfl, rfl, rfl, rfl⟩

/-- The output register after `gpio_mode_set_input` with a pull, on any valid
pin identifier: the bit that is set (pull-up) or cleared (pull-down) is bit
`n % 8`, the other bits are kept, and `OUTDR` is written before the
configuration register. For the lines 0 to 7 this is the line itself; for the
lines 8 to 15 it is the line `n - 8` and bit `n` is kept. -/
theorem gpio_mode_set_input_OUTDR_bit (n : Nat) (hn : n ≤ 15) (p : GPIO_TypeDef) :
    (∀ i, i < 32 →
      (gpio_mode_set_input (GPIO_PIN n) GPIO_PULL_UP p).OUTDR.testBit i =
        (p.OUTDR.testBit i || decide (i = n % 8))) ∧
    (∀ i, i < 32 →
      (gpio_mode_set_input (GPIO_PIN n) GPIO_PULL_DOWN p).OUTDR.testBit i =
        (p.OUTDR.testBit i && !decide (i = n % 8))) ∧
    (gpio_mode_set_input (GPIO_PIN n) GPIO_PULL_UP p).writes.map Prod.fst =
      p.writes.map Prod.fst ++ [Reg.OUTDR, cfgRegOf n] ∧
    (gpio_mode_set_input (GPIO_PIN n) GPIO_PULL_DOWN p).writes.map Prod.fst =
      p.writes.map Prod.fst ++ [Reg.OUTDR, cfgRegOf n] := by
  have h10 : ¬ GPIO_PULL_UP = GPIO_PULL_NONE := by decide
  have h20 : ¬ GPIO_PULL_DOWN = GPIO_PULL_NONE := by decide
  have h21 : ¬ GPIO_PULL_DOWN = GPIO_PULL_UP := by decide
  rw [gpio_mode_set_input_eq n GPIO_PULL_UP hn p, gpio_mode_set_input_eq n GPIO_PULL_DOWN hn p]
  simp only [h10, h20, h21, if_false, if_true]
  refine ⟨?_, ?_, ?_, ?_⟩
  · intro i hi
    rw [OUTDR_write_cfgRegOf]
    show (u32 (p.OUTDR ||| 2 ^ (n % 8))).testBit i = _
    rw [testBit_u32, Nat.testBit_or, Nat.testBit_two_pow]
    by_cases h : n % 8 = i
    · simp [hi, h]
    · have h' : ¬ i = n % 8 := fun e => h e.symm
      simp [hi, h, h']
  · intro i hi
    rw [OUTDR_write_cfgRegOf]
    show (u32 (p.OUTDR &&& not32 (2 ^ (n % 8)))).testBit i = _
    rw [testBit_u32, Nat.testBit_and, testBit_not32, Nat.testBit_two_pow]
    by_cases h : n % 8 = i
    · simp [hi, h]
    · have h' : ¬ i = n % 8 := fun e => h e.symm
      simp [hi, h, h']
  · rw [writes_write, writes_write]
    simp
  · rw [writes_write, writes_write]
    simp

theorem gpio_read_eq (j : Nat) (hj : j ≤ 15) (r : GPIO_TypeDef) :
    gpio_read (GPIO_PIN j) r = lineLevel r j := by
  have h16 : j < 16 := by omega
  have hpos : 2 ^ j ≠ 0 := Nat.pos_iff_ne_zero.mp (Nat.two_pow_pos j)
  unfold gpio_read
  rw [GPIO_PIN_eq j hj]
  show ((INDR r &&& 2 ^ j) != 0) = lineLevel r j
  rw [and_two_pow, INDR, testBit_bitsBelow]
  cases lineLevel r j <;> simp [h16, hpos]

theorem lineLevel_gpio_set (n j : Nat) (hn : n ≤ 15) (r : GPIO_TypeDef) :
    lineLevel (gpio_set (GPIO_PIN n) r) j =
      if pinIsOutput r j then (r.OUTDR.testBit j || decide (n = j)) else r.pads.testBit j := by
  have hout : pinIsOutput (gpio_set (GPIO_PIN n) r) j = pinIsOutput r j := by
    unfold pinIsOutput cfgField cfgRegOf; split <;> rfl
  have hO : (gpio_set (GPIO_PIN n) r).OUTDR = r.OUTDR ||| u32 (2 ^ n) := by
    rw [← GPIO_PIN_eq n hn]; rfl
  have hP : (gpio_set (GPIO_PIN n) r).pads = r.pads := rfl
  unfold lineLevel
  rw [hout, hO, hP, Nat.testBit_or, testBit_u32, Nat.testBit_two_pow]
  by_cases h : n = j
  · have : j < 32 := by omega
    simp [h, this]
  · simp [h]

theorem lineLevel_gpio_clear (n j : Nat) (hn : n ≤ 15) (r : GPIO_TypeDef) :
    lineLevel (gpio_clear (GPIO_PIN n) r) j =
      if pinIsOutput r j then (r.OUTDR.testBit j && decide (j < 32) && !decide (n = j))
      else r.pads.testBit j := by
  have hout : pinIsOutput (gpio_clear (GPIO_PIN n) r) j = pinIsOutput r j := by
    unfold pinIsOutput cfgField cfgRegOf; split <;> rfl
  have hO : (gpio_clear (GPIO_PIN n) r).OUTDR = r.OUTDR &&& not32 (2 ^ n) := by
    rw [← GPIO_PIN_eq n hn]; rfl
  have hP : (gpio_clear (GPIO_PIN n) r).pads = r.pads := rfl
  unfold lineLevel
  rw [hout, hO, hP, Nat.testBit_and, testBit_not32, Nat.testBit_two_pow, Bool.and_assoc]

theorem cfgField_gpio_mode_set_output (n m : Nat) (hn : n ≤ 15) (hm : m ≤ 15)
    (p : GPIO_TypeDef) : cfgField (gpio_mode_set_output (GPIO_PIN n) m p) n = m := by
  have hs : 4 * (n % 8) + 4 ≤ 32 := by omega
  rw [gpio_mode_set_output_eq n m hn p]
  unfold cfgField
  rw [stored_write_cfgRegOf]
  exact field_update_self _ m _ hs hm

/-- The set/clear/read property on the v203 port. -/
theorem gpio_set_clear_read_v203 (n speed : Nat) (hn : n ≤ 15)
    (hspeed : 1 ≤ speed ∧ speed ≤ 3) (p : GPIO_TypeDef) :
    gpio_read (GPIO_PIN n) (gpio_set (GPIO_PIN n)
      (gpio_mode_set_output (GPIO_PIN n) (GPIO_OUTPUT_PUSH_PULL speed) p)) = true ∧
    gpio_read (GPIO_PIN n) (gpio_clear (GPIO_PIN n)
      (gpio_mode_set_output (GPIO_PIN n) (GPIO_OUTPUT_PUSH_PULL speed) p)) = false ∧
    (∀ (r : GPIO_TypeDef) (j : Nat), j ≤ 15 → j ≠ n →
      gpio_read (GPIO_PIN j) (gpio_set (GPIO_PIN n) r) = gpio_read (GPIO_PIN j) r ∧
      gpio_read (GPIO_PIN j) (gpio_clear (GPIO_PIN n) r) = gpio_read (GPIO_PIN j) r) := by
  have hout : pinIsOutput (gpio_mode_set_output (GPIO_PIN n) (GPIO_OUTPUT_PUSH_PULL speed) p) n
      = true := by
    unfold pinIsOutput
    rw [cfgField_gpio_mode_set_output n _ hn (by unfold GPIO_OUTPUT_PUSH_PULL; omega)]
    unfold GPIO_OUTPUT_PUSH_PULL
    obtain ⟨h1, h3⟩ := hspeed
    interval_cases speed <;> rfl
  refine ⟨?_, ?_, ?_⟩
  · rw [gpio_read_eq n hn, lineLevel_gpio_set n n hn, hout]
    simp
  · rw [gpio_read_eq n hn, lineLevel_gpio_clear n n hn, hout]
    simp
  · intro r j hj hjn
    have hne : ¬ n = j := fun h => hjn h.symm
    have h32 : j < 32 := by omega
    rw [gpio_read_eq j hj, gpio_read_eq j hj, gpio_read_eq j hj, lineLevel_gpio_set n j hn,
      lineLevel_gpio_clear n j hn]
    unfold lineLevel
    simp [hne, h32]

/-- Witness for C10: line 9 driven with value 2 on a port with all lines floating. -/
theorem gpio_mode_set_output_spec_witness :
    cfgField (gpio_mode_set_output (GPIO_PIN 9) 2 ⟨0x44444444, 0x44444444, 0, 0, []⟩) 9 = 2 :=
  (gpio_mode_set_output_spec 9 2 (by decide) (by decide) ⟨0x44444444, 0x44444444, 0, 0, []⟩).1

/-- Bits of the clock-enable register after `bl_timer_disable`. -/
theorem testBit_bl_timer_disable (M : Nat) (m : Machine) (i : Nat) :
    (bl_timer_disable M m).APB1PCENR.testBit i =
      (decide (i < 32) && m.APB1PCENR.testBit i && !M.testBit i) := by
  show (u32 (m.APB1PCENR &&& not32 M)).testBit i = _
  rw [testBit_u32, Nat.testBit_and, testBit_not32]
  by_cases h : i < 32 <;> simp [h]

theorem bl_timer_disable_and_mask (M : Nat) (m : Machine) :
    (bl_timer_disable M m).APB1PCENR &&& M = 0 := by
  apply Nat.eq_of_testBit_eq
  intro i
  rw [Nat.testBit_and, testBit_bl_timer_disable, Nat.zero_testBit]
  cases M.testBit i <;> simp

/-- C8: on v203, for every prior value of `APB1PCENR`, `bl_timer_disable`
leaves the TIM2 bit (every bit of the mask `RCC_APB1Periph_TIM2`) at 0 and every
other bit of the 32-bit register at its prior value; and `bl_timer_init`
followed by `bl_timer_disable` leaves every bit outside the mask as it was
before `bl_timer_init`. -/
theorem bl_timer_disable_spec (RCC_APB1Periph_TIM2 TIM_CKD_DIV1 TIM_CounterMode_Up TIM_ARPE
    TIM_CEN : Nat) (m : Machine) :
    (bl_timer_disable RCC_APB1Periph_TIM2 m).APB1PCENR &&& RCC_APB1Periph_TIM2 = 0 ∧
    (∀ i, RCC_APB1Periph_TIM2.testBit i = true →
      (bl_timer_disable RCC_APB1Periph_TIM2 m).APB1PCENR.testBit i = false) ∧
    (∀ i, i < 32 → RCC_APB1Periph_TIM2.testBit i = false →
      (bl_timer_disable RCC_APB1Periph_TIM2 m).APB1PCENR.testBit i = m.APB1PCENR.testBit i) ∧
    (∀ i, i < 32 → RCC_APB1Periph_TIM2.testBit i = false →
      (bl_timer_disable RCC_APB1Periph_TIM2
        (bl_timer_init RCC_APB1Periph_TIM2 TIM_CKD_DIV1 TIM_CounterMode_Up TIM_ARPE TIM_CEN
          m)).APB1PCENR.testBit i = m.APB1PCENR.testBit i) := by
  refine ⟨bl_timer_disable_and_mask _ _, ?_, ?_, ?_⟩
  · intro i hi
    rw [testBit_bl_timer_disable, hi]
    simp
  · intro i hi hM
    rw [testBit_bl_timer_disable, hM]
    simp [hi]
  · intro i hi hM
    rw [testBit_bl_timer_disable, hM]
    show (decide (i < 32) && (u32 (m.APB1PCENR ||| RCC_APB1Periph_TIM2)).testBit i && !false) = _
    rw [testBit_u32, Nat.testBit_or, hM]
    simp [hi]

/-- Witness for C8: the mask `0x1`, the register at `0x0000000B`, bit 3. -/
theorem bl_timer_disable_spec_witness :
    (bl_timer_disable 0x1 ⟨0xB, ⟨0, 0, 0, 0⟩, true, 0, fun _ => 0, []⟩).APB1PCENR.testBit 3 =
      (0xB : Nat).testBit 3 :=
  (bl_timer_disable_spec 0x1 0 0 0x80 0x1
    ⟨0xB, ⟨0, 0, 0, 0⟩, true, 0, fun _ => 0, []⟩).2.2.1 3 (by decide) (by decide)

/-- C2: on v203, for every machine state and every flash content,
`jump_to_application` leaves the stack pointer at exactly
`RAM_BASE + RAM_SIZE = 0x20005000` and branches to `FIRMWARE_RELATIVE_START`;
both are the same for any other flash content, no flash address is read, and in
the state before the branch interrupts are disabled and the TIM2 clock-enable
bit is 0. -/
theorem jump_to_application_v203_spec (RCC_APB1Periph_TIM2 FIRMWARE_RELATIVE_START : Nat)
    (hF : FIRMWARE_RELATIVE_START < 2 ^ 32) (m : Machine) :
    (jump_to_application RCC_APB1Periph_TIM2 FIRMWARE_RELATIVE_START m).1.sp =
      RAM_BASE + RAM_SIZE ∧
    RAM_BASE + RAM_SIZE = 0x20000000 + 20 * 1024 ∧
    RAM_BASE + RAM_SIZE = 0x20005000 ∧
    (jump_to_application RCC_APB1Periph_TIM2 FIRMWARE_RELATIVE_START m).2 =
      FIRMWARE_RELATIVE_START ∧
    (∀ flash' : Nat → Nat,
      (jump_to_application RCC_APB1Periph_TIM2 FIRMWARE_RELATIVE_START
        { m with flash := flash' }).1.sp =
        (jump_to_application RCC_APB1Periph_TIM2 FIRMWARE_RELATIVE_START m).1.sp ∧
      (jump_to_application RCC_APB1Periph_TIM2 FIRMWARE_RELATIVE_START
        { m with flash := flash' }).2 =
        (jump_to_application RCC_APB1Periph_TIM2 FIRMWARE_RELATIVE_START m).2) ∧
    (jump_to_application RCC_APB1Periph_TIM2 FIRMWARE_RELATIVE_START m).1.flash_reads =
      m.flash_reads ∧
    (jump_to_application RCC_APB1Periph_TIM2 FIRMWARE_RELATIVE_START m).1.irq_enabled = false ∧
    (jump_to_application RCC_APB1Periph_TIM2 FIRMWARE_RELATIVE_START m).1.APB1PCENR &&&
      RCC_APB1Periph_TIM2 = 0 := by
  refine ⟨rfl, rfl, rfl, Nat.mod_eq_of_lt hF, fun _ => ⟨rfl, rfl⟩, rfl, rfl, ?_⟩
  exact bl_timer_disable_and_mask RCC_APB1Periph_TIM2 (disable_irq m)

/-- Witness for C2: the TIM2 mask `0x1`, the application at `0x1000`, and a
machine with interrupts and the timer clock enabled. -/
theorem jump_to_application_v203_spec_witness :
    (jump_to_application 0x1 0x1000
      ⟨0x1, ⟨0x81, 143, 0xFFFF, 7⟩, true, 0x20001234, fun a => a + 1, []⟩).1.sp =
      RAM_BASE + RAM_SIZE :=
  (jump_to_application_v203_spec 0x1 0x1000 (by decide)
    ⟨0x1, ⟨0x81, 143, 0xFFFF, 7⟩, true, 0x20001234, fun a => a + 1, []⟩).1

end V203

namespace G431

theorem GPIO_PIN_eq_g431 (n : Nat) (hn : n ≤ 15) : GPIO_PIN n = 2 ^ n := by
  interval_cases n <;> rfl

theorem testBit_IDR (r : GPIO_TypeDef) (j : Nat) (hj : j < 32) :
    (IDR r).testBit j =
      ((r.ODR.testBit j && r.outputs.testBit j) || (r.pads.testBit j && !r.outputs.testBit j)) := by
  unfold IDR
  rw [testBit_u32, Nat.testBit_or, Nat.testBit_and, Nat.testBit_and, testBit_not32]
  simp [hj]

theorem gpio_read_eq_g431 (j : Nat) (hj : j ≤ 15) (r : GPIO_TypeDef) :
    gpio_read (GPIO_PIN j) r = (IDR r).testBit j := by
  have hpos : 2 ^ j ≠ 0 := Nat.pos_iff_ne_zero.mp (Nat.two_pow_pos j)
  unfold gpio_read LL_GPIO_IsInputPinSet
  rw [GPIO_PIN_eq_g431 j hj, and_two_pow]
  cases (IDR r).testBit j <;> simp [hpos.symm]

/-- The set/clear/read property on the g431 port. -/
theorem gpio_set_clear_read_g431 (n output_type : Nat) (hn : n ≤ 15) (p : GPIO_TypeDef) :
    gpio_read (GPIO_PIN n) (gpio_set (GPIO_PIN n)
      (gpio_mode_set_output (GPIO_PIN n) (GPIO_OUTPUT_PUSH_PULL output_type) p)) = true ∧
    gpio_read (GPIO_PIN n) (gpio_clear (GPIO_PIN n)
      (gpio_mode_set_output (GPIO_PIN n) (GPIO_OUTPUT_PUSH_PULL output_type) p)) = false ∧
    (∀ (r : GPIO_TypeDef) (j : Nat), j ≤ 15 → j ≠ n →
      gpio_read (GPIO_PIN j) (gpio_set (GPIO_PIN n) r) = gpio_read (GPIO_PIN j) r ∧
      gpio_read (GPIO_PIN j) (gpio_clear (GPIO_PIN n) r) = gpio_read (GPIO_PIN j) r) := by
  have h32 : n < 32 := by omega
  refine ⟨?_, ?_, ?_⟩
  · rw [gpio_read_eq_g431 n hn, testBit_IDR _ n h32, GPIO_PIN_eq_g431 n hn]
    simp [gpio_set, gpio_mode_set_output, LL_GPIO_SetOutputPin, LL_GPIO_SetPinOutputType,
      LL_GPIO_SetPinMode, testBit_u32, Nat.testBit_two_pow, h32]
  · rw [gpio_read_eq_g431 n hn, testBit_IDR _ n h32, GPIO_PIN_eq_g431 n hn]
    simp [gpio_clear, gpio_mode_set_output, LL_GPIO_ResetOutputPin, LL_GPIO_SetPinOutputType,
      LL_GPIO_SetPinMode, testBit_u32, testBit_not32, Nat.testBit_two_pow, h32]
  · intro r j hj hjn
    have hj32 : j < 32 := by omega
    have hne : ¬ n = j := fun h => hjn h.symm
    rw [gpio_read_eq_g431 j hj, gpio_read_eq_g431 j hj, gpio_read_eq_g431 j hj,
      testBit_IDR _ j hj32, testBit_IDR _ j hj32, testBit_IDR _ j hj32, GPIO_PIN_eq_g431 n hn]
    constructor
    · simp [gpio_set, LL_GPIO_SetOutputPin, testBit_u32, Nat.testBit_two_pow, hne]
    · simp [gpio_clear, LL_GPIO_ResetOutputPin, testBit_not32, Nat.testBit_two_pow, hne, hj32]

/-- C1: on g431, for every machine state and every pair of 32-bit words `w0`,
`w1` stored in flash at offsets 0 and 4 from the application start address
`MCU_FLASH_START + FIRMWARE_RELATIVE_START`, the state `jump_to_application`
produces just before the final branch has interrupts disabled, the timer as
`bl_timer_disable` leaves it (counter not enabled), `VTOR` equal to the
application start address, `sp` and `msp` equal to `w0`, and the branch target
is `w1`; the two header words are the only flash reads. -/
theorem jump_to_application_g431_spec (MCU_FLASH_START FIRMWARE_RELATIVE_START w0 w1 : Nat)
    (m : Machine) (hsum : MCU_FLASH_START + FIRMWARE_RELATIVE_START < 2 ^ 32)
    (h0 : w0 < 2 ^ 32) (h1 : w1 < 2 ^ 32)
    (hw0 : m.flash (MCU_FLASH_START + FIRMWARE_RELATIVE_START) = w0)
    (hw1 : m.flash (MCU_FLASH_START + FIRMWARE_RELATIVE_START + 4) = w1) :
    (jump_to_application MCU_FLASH_START FIRMWARE_RELATIVE_START m).1.irq_enabled = false ∧
    (jump_to_application MCU_FLASH_START FIRMWARE_RELATIVE_START m).1.TIM2 =
      (bl_timer_disable m).TIM2 ∧
    (jump_to_application MCU_FLASH_START FIRMWARE_RELATIVE_START m).1.TIM2.counterEnabled =
      false ∧
    (jump_to_application MCU_FLASH_START FIRMWARE_RELATIVE_START m).1.VTOR =
      MCU_FLASH_START + FIRMWARE_RELATIVE_START ∧
    (jump_to_application MCU_FLASH_START FIRMWARE_RELATIVE_START m).1.sp = w0 ∧
    (jump_to_application MCU_FLASH_START FIRMWARE_RELATIVE_START m).1.msp = w0 ∧
    (jump_to_application MCU_FLASH_START FIRMWARE_RELATIVE_START m).2 = w1 ∧
    (jump_to_application MCU_FLASH_START FIRMWARE_RELATIVE_START m).1.flash_reads =
      m.flash_reads ++ [MCU_FLASH_START + FIRMWARE_RELATIVE_START,
        MCU_FLASH_START + FIRMWARE_RELATIVE_START + 4] := by
  have happ : app_address MCU_FLASH_START FIRMWARE_RELATIVE_START =
      MCU_FLASH_START + FIRMWARE_RELATIVE_START := Nat.mod_eq_of_lt hsum
  have e0 : u32 w0 = w0 := Nat.mod_eq_of_lt h0
  have e1 : u32 w1 = w1 := Nat.mod_eq_of_lt h1
  simp only [jump_to_application, readFlash, disable_irq, bl_timer_disable, LL_TIM_DeInit, happ,
    hw0, hw1, e0, e1, List.append_assoc, List.singleton_append]
  exact ⟨trivial, trivial, trivial, trivial, trivial, trivial, trivial, trivial⟩

/-- Witness for C1: flash start `0x08000000`, application offset `0x1000`, a
header with stack top `0x20008000` and entry `0x08001235`. -/
theorem jump_to_application_g431_spec_witness :
    (jump_to_application 0x08000000 0x1000
      ⟨true, ⟨true, false, 159, 0xFFFFFFFF, 42⟩, true, 0, 0, 0,
        fun a => if a = 0x08001000 then 0x20008000 else 0x08001235, []⟩).2 = 0x08001235 :=
  (jump_to_application_g431_spec 0x08000000 0x1000 0x20008000 0x08001235
    ⟨true, ⟨true, false, 159, 0xFFFFFFFF, 42⟩, true, 0, 0, 0,
      fun a => if a = 0x08001000 then 0x20008000 else 0x08001235, []⟩
    (by decide) (by decide) (by decide) (by decide) (by decide)).2.2.2.2.2.2.1

/-! ### Executions of `bl_clock_config` -/

theorem emit_running (x : Exec) (e : Event) : (x.emit e).running = x.running := by
  unfold Exec.emit; split <;> rfl

theorem emit_fuel (x : Exec) (e : Event) : (x.emit e).fuel = x.fuel := by
  unfold Exec.emit; split <;> rfl

theorem emit_trace (x : Exec) (e : Event) :
    (x.emit e).trace = x.trace ++ (if x.running then [e] else []) := by
  unfold Exec.emit; split <;> simp

/-- A busy-wait loop only appends status reads to the trace; if it ends, the
last one it appended is a read of the awaited value, and it never ends on a
stream that never yields the awaited value. -/
theorem pollLoop_trace (rd : Nat → Nat) (ev : Nat → Event) (a : Nat) :
    ∀ fuel k tr, ∃ mid : List Nat, (∀ v ∈ mid, v ≠ a) ∧
      (((pollLoop rd ev a fuel k tr).running = true ∧
          (pollLoop rd ev a fuel k tr).trace = tr ++ mid.map ev ++ [ev a]) ∨
       ((pollLoop rd ev a fuel k tr).running = false ∧
          (pollLoop rd ev a fuel k tr).trace = tr ++ mid.map ev)) := by
  intro fuel
  induction fuel with
  | zero =>
    intro k tr
    exact ⟨[], by simp, Or.inr ⟨rfl, by simp [pollLoop]⟩⟩
  | succ fuel ih =>
    intro k tr
    by_cases h : rd k = a
    · refine ⟨[], by simp, Or.inl ?_⟩
      simp [pollLoop, h]
    · obtain ⟨mid, hmid, hcase⟩ := ih (k + 1) (tr ++ [ev (rd k)])
      refine ⟨rd k :: mid, ?_, ?_⟩
      · intro v hv
        rcases List.mem_cons.mp hv with hv | hv
        · subst hv; exact h
        · exact hmid v hv
      · simp only [pollLoop, h, if_false, List.map_cons]
        simpa [List.append_assoc] using hcase

theorem pollLoop_never (rd : Nat → Nat) (ev : Nat → Event) (a : Nat) (h : ∀ k, rd k ≠ a) :
    ∀ fuel k tr, (pollLoop rd ev a fuel k tr).running = false := by
  intro fuel
  induction fuel with
  | zero => intro k tr; rfl
  | succ fuel ih =>
    intro k tr
    simp only [pollLoop, h k, if_false]
    exact ih _ _

/-- A busy-wait loop ends when the awaited value comes at the `j`-th read and
more than `j` iterations are allowed; it uses at most `j + 1` of them. -/
theorem pollLoop_live (rd : Nat → Nat) (ev : Nat → Event) (a : Nat) :
    ∀ j fuel k tr F, rd (k + j) = a → F + j + 1 ≤ fuel →
      (pollLoop rd ev a fuel k tr).running = true ∧ F ≤ (pollLoop rd ev a fuel k tr).fuel := by
  intro j
  induction j with
  | zero =>
    intro fuel k tr F hrd hF
    obtain ⟨f, rfl⟩ : ∃ f, fuel = f + 1 := ⟨fuel - 1, by omega⟩
    simp only [Nat.add_zero] at hrd
    simp only [pollLoop, hrd, if_true]
    exact ⟨trivial, by omega⟩
  | succ j ih =>
    intro fuel k tr F hrd hF
    obtain ⟨f, rfl⟩ : ∃ f, fuel = f + 1 := ⟨fuel - 1, by omega⟩
    by_cases h : rd k = a
    · simp only [pollLoop, h, if_true]
      exact ⟨trivial, by omega⟩
    · simp only [pollLoop, h, if_false]
      exact ih f (k + 1) _ F (by rw [← hrd]; congr 1; omega) (by omega)

theorem poll_running_imp (x : Exec) (rd : Nat → Nat) (ev : Nat → Event) (a : Nat)
    (h : (x.poll rd ev a).running = true) : x.running = true := by
  unfold Exec.poll at h
  by_cases hx : x.running = true
  · exact hx
  · rw [if_neg hx] at h; exact h

theorem poll_trace (x : Exec) (rd : Nat → Nat) (ev : Nat → Event) (a : Nat) :
    ∃ mid : List Nat, (∀ v ∈ mid, v ≠ a) ∧
      (((x.poll rd ev a).running = true ∧
          (x.poll rd ev a).trace = x.trace ++ mid.map ev ++ [ev a]) ∨
       ((x.poll rd ev a).running = false ∧ (x.poll rd ev a).trace = x.trace ++ mid.map ev)) := by
  unfold Exec.poll
  by_cases hx : x.running = true
  · rw [if_pos hx]
    exact pollLoop_trace rd ev a x.fuel 0 x.trace
  · rw [if_neg hx]
    exact ⟨[], by simp, Or.inr ⟨by simpa using hx, by simp⟩⟩

theorem poll_never (x : Exec) (rd : Nat → Nat) (ev : Nat → Event) (a : Nat)
    (h : ∀ k, rd k ≠ a) : (x.poll rd ev a).running = false := by
  unfold Exec.poll
  by_cases hx : x.running = true
  · rw [if_pos hx]; exact pollLoop_never rd ev a h _ _ _
  · rw [if_neg hx]; simpa using hx

theorem stopped_emit {x : Exec} (e : Event) (h : x.running = false) :
    (x.emit e).running = false := by
  rw [emit_running]; exact h

theorem stopped_poll {x : Exec} (rd : Nat → Nat) (ev : Nat → Event) (a : Nat)
    (h : x.running = false) : (x.poll rd ev a).running = false := by
  unfold Exec.poll; simp [h]

theorem live_emit {x : Exec} {F : Nat} (e : Event) (h : x.running = true ∧ F ≤ x.fuel) :
    (x.emit e).running = true ∧ F ≤ (x.emit e).fuel := by
  rw [emit_running, emit_fuel]; exact h

theorem live_poll {x : Exec} {F : Nat} (rd : Nat → Nat) (ev : Nat → Event) (a j : Nat)
    (hrd : rd j = a) (h : x.running = true ∧ F + j + 1 ≤ x.fuel) :
    (x.poll rd ev a).running = true ∧ F ≤ (x.poll rd ev a).fuel := by
  unfold Exec.poll
  rw [if_pos h.1]
  exact pollLoop_live rd ev a j x.fuel 0 x.trace F (by simpa using hrd) h.2

/-- Extension of the trace by a write: the events added since `base` satisfy `P`. -/
theorem ext_emit {P : Event → Prop} {base : List Event} {x : Exec} (e : Event) (hP : P e)
    (h : ∃ post, x.trace = base ++ post ∧ ∀ e' ∈ post, P e') :
    ∃ post, (x.emit e).trace = base ++ post ∧ ∀ e' ∈ post, P e' := by
  obtain ⟨post, hpost, hall⟩ := h
  refine ⟨post ++ (if x.running then [e] else []), ?_, ?_⟩
  · rw [emit_trace, hpost, List.append_assoc]
  · intro e' he'
    rcases List.mem_append.mp he' with h1 | h1
    · exact hall e' h1
    · split at h1
      · rw [List.mem_singleton] at h1; subst h1; exact hP
      · simp at h1

/-- Extension of the trace by a busy-wait loop. -/
theorem ext_poll {P : Event → Prop} {base : List Event} {x : Exec} (rd : Nat → Nat)
    (ev : Nat → Event) (a : Nat) (hP : ∀ v, P (ev v))
    (h : ∃ post, x.trace = base ++ post ∧ ∀ e' ∈ post, P e') :
    ∃ post, (x.poll rd ev a).trace = base ++ post ∧ ∀ e' ∈ post, P e' := by
  obtain ⟨post, hpost, hall⟩ := h
  obtain ⟨mid, -, hcase⟩ := poll_trace x rd ev a
  have hmid : ∀ e' ∈ mid.map ev, P e' := by
    intro e' he'
    obtain ⟨v, -, rfl⟩ := List.mem_map.mp he'
    exact hP v
  rcases hcase with ⟨-, ht⟩ | ⟨-, ht⟩
  · refine ⟨post ++ (mid.map ev ++ [ev a]), ?_, ?_⟩
    · rw [ht, hpost]; simp [List.append_assoc]
    · intro e' he'
      rcases List.mem_append.mp he' with h1 | h1
      · exact hall e' h1
      · rcases List.mem_append.mp h1 with h2 | h2
        · exact hmid e' h2
        · rw [List.mem_singleton] at h2; subst h2; exact hP a
  · refine ⟨post ++ mid.map ev, ?_, ?_⟩
    · rw [ht, hpost, List.append_assoc]
    · intro e' he'
      rcases List.mem_append.mp he' with h1 | h1
      · exact hall e' h1
      · exact hmid e' h1

/-- An ordered selection of the trace grows by a write that is selected. -/
theorem sub_emit_add {L : List Event} {x : Exec} (e : Event)
    (h : x.running = true → List.Sublist L x.trace) :
    (x.emit e).running = true → List.Sublist (L ++ [e]) (x.emit e).trace := by
  intro hr
  rw [emit_running] at hr
  rw [emit_trace, if_pos hr]
  exact List.Sublist.append (h hr) (List.Sublist.refl _)

/-- An ordered selection of the trace stays one after a write that is not selected. -/
theorem sub_emit_keep {L : List Event} {x : Exec} (e : Event)
    (h : x.running = true → List.Sublist L x.trace) :
    (x.emit e).running = true → List.Sublist L (x.emit e).trace := by
  intro hr
  rw [emit_running] at hr
  rw [emit_trace]
  exact List.sublist_append_of_sublist_left (h hr)

/-- An ordered selection of the trace grows by the read that ends a busy-wait loop. -/
theorem sub_poll_add {L : List Event} {x : Exec} (rd : Nat → Nat) (ev : Nat → Event) (a : Nat)
    (h : x.running = true → List.Sublist L x.trace) :
    (x.poll rd ev a).running = true → List.Sublist (L ++ [ev a]) (x.poll rd ev a).trace := by
  intro hr
  have hx := poll_running_imp x rd ev a hr
  obtain ⟨mid, -, hcase⟩ := poll_trace x rd ev a
  rcases hcase with ⟨-, ht⟩ | ⟨hf, -⟩
  · rw [ht]
    exact List.Sublist.append (List.sublist_append_of_sublist_left (h hx)) (List.Sublist.refl _)
  · rw [hf] at hr; exact absurd hr (by decide)

/-- The clock control state after a write of a run that is still advancing. -/
theorem fold_emit {r : RCCState} {x : Exec} (e : Event)
    (h : x.running = true → rccAfter x.trace = r) :
    (x.emit e).running = true → rccAfter (x.emit e).trace = applyEvent r e := by
  intro hr
  rw [emit_running] at hr
  rw [emit_trace, if_pos hr]
  unfold rccAfter at h ⊢
  rw [List.foldl_append, h hr]
  rfl

/-- The clock control state after a busy-wait loop that ended: the reads that
did not match leave it as it is, the read of the awaited value acts on it. -/
theorem fold_poll {r : RCCState} {x : Exec} (rd : Nat → Nat) (ev : Nat → Event) (a : Nat)
    (hne : ∀ s v, v ≠ a → applyEvent s (ev v) = s)
    (h : x.running = true → rccAfter x.trace = r) :
    (x.poll rd ev a).running = true →
      rccAfter (x.poll rd ev a).trace = applyEvent r (ev a) := by
  intro hr
  have hx := poll_running_imp x rd ev a hr
  have hmid : ∀ (l : List Nat) (s : RCCState), (∀ v ∈ l, v ≠ a) →
      (l.map ev).foldl applyEvent s = s := by
    intro l
    induction l with
    | nil => intro s _; rfl
    | cons v l ih =>
      intro s hl
      simp only [List.map_cons, List.foldl_cons]
      rw [hne s v (hl v (List.mem_cons_self v l))]
      exact ih s (fun w hw => hl w (List.mem_cons_of_mem v hw))
  obtain ⟨mid, hmidne, hcase⟩ := poll_trace x rd ev a
  rcases hcase with ⟨-, ht⟩ | ⟨hstop, -⟩
  · rw [ht]
    unfold rccAfter at h ⊢
    rw [List.foldl_append, List.foldl_append, h hx, hmid mid r hmidne]
    rfl
  · rw [hstop] at hr; exact absurd hr (by decide)

/-- The selection of the prerequisites from the trace at the end of the wait for
the PLL. -/
theorem before_switch_sub (o : Oracle) (fuel : Nat) :
    (bl_clock_config_before_switch o fuel).running = true →
      List.Sublist switchPrerequisites (bl_clock_config_before_switch o fuel).trace := by
  have h0 : (Exec.mk [] fuel true).running = true →
      List.Sublist [] (Exec.mk [] fuel true).trace := fun _ => List.Sublist.refl _
  have h1 := sub_emit_add (Event.FLASH_SetLatency LL_FLASH_LATENCY_4) h0
  have h2 := sub_poll_add o.flashLatency Event.FLASH_GetLatency LL_FLASH_LATENCY_4 h1
  have h3 := sub_emit_add (Event.PWR_SetRegulVoltageScaling LL_PWR_REGU_VOLTAGE_SCALE1) h2
  have h4 := sub_poll_add o.vosFlag Event.PWR_IsActiveFlag_VOS 0 h3
  have h5 := sub_emit_keep Event.RCC_HSI_Enable h4
  have h6 := sub_poll_add o.hsiReady Event.RCC_HSI_IsReady 1 h5
  have h7 := sub_emit_keep
    (Event.RCC_PLL_ConfigDomain_SYS LL_RCC_PLLSOURCE_HSI LL_RCC_PLLM_DIV_2 40 LL_RCC_PLLR_DIV_2) h6
  have h8 := sub_emit_keep Event.RCC_PLL_EnableDomain_SYS h7
  have h9 := sub_emit_keep Event.RCC_PLL_Enable h8
  exact sub_poll_add o.pllReady Event.RCC_PLL_IsReady 1 h9

/-- No system-clock switch has been issued at the end of the wait for the PLL. -/
theorem before_switch_no_switch (o : Oracle) (fuel : Nat) :
    switchEvent ∉ (bl_clock_config_before_switch o fuel).trace := by
  have h0 : ∃ post, (Exec.mk [] fuel true).trace = [] ++ post ∧ ∀ e' ∈ post, e' ≠ switchEvent :=
    ⟨[], rfl, by simp⟩
  have h1 := ext_emit (Event.FLASH_SetLatency LL_FLASH_LATENCY_4) (by decide) h0
  have h2 := ext_poll o.flashLatency Event.FLASH_GetLatency LL_FLASH_LATENCY_4
    (fun v h => by cases h) h1
  have h3 := ext_emit (Event.PWR_SetRegulVoltageScaling LL_PWR_REGU_VOLTAGE_SCALE1)
    (by decide) h2
  have h4 := ext_poll o.vosFlag Event.PWR_IsActiveFlag_VOS 0 (fun v h => by cases h) h3
  have h5 := ext_emit Event.RCC_HSI_Enable (by decide) h4
  have h6 := ext_poll o.hsiReady Event.RCC_HSI_IsReady 1 (fun v h => by cases h) h5
  have h7 := ext_emit
    (Event.RCC_PLL_ConfigDomain_SYS LL_RCC_PLLSOURCE_HSI LL_RCC_PLLM_DIV_2 40 LL_RCC_PLLR_DIV_2)
    (by decide) h6
  have h8 := ext_emit Event.RCC_PLL_EnableDomain_SYS (by decide) h7
  have h9 := ext_emit Event.RCC_PLL_Enable (by decide) h8
  have h10 := ext_poll o.pllReady Event.RCC_PLL_IsReady 1 (fun v h => by cases h) h9
  obtain ⟨post, hpost, hall⟩ := h10
  intro hmem
  have : (bl_clock_config_before_switch o fuel).trace = [] ++ post := hpost
  rw [this, List.nil_append] at hmem
  exact hall _ hmem rfl

/-- Everything `bl_clock_config` does after the switch is not a switch. -/
theorem after_switch_ext (o : Oracle) (fuel : Nat) :
    ∃ post, (bl_clock_config o fuel).trace =
        ((bl_clock_config_before_switch o fuel).emit switchEvent).trace ++ post ∧
      ∀ e' ∈ post, e' ≠ switchEvent := by
  have h0 : ∃ post, ((bl_clock_config_before_switch o fuel).emit switchEvent).trace =
      ((bl_clock_config_before_switch o fuel).emit switchEvent).trace ++ post ∧
      ∀ e' ∈ post, e' ≠ switchEvent := ⟨[], by simp, by simp⟩
  have h1 := ext_poll o.sysClkSource Event.RCC_GetSysClkSource LL_RCC_SYS_CLKSOURCE_STATUS_PLL
    (fun v h => by cases h) h0
  have h2 := ext_emit (Event.RCC_SetAHBPrescaler LL_RCC_SYSCLK_DIV_1) (by decide) h1
  have h3 := ext_emit (Event.RCC_SetAPB1Prescaler LL_RCC_APB1_DIV_1) (by decide) h2
  exact ext_emit (Event.RCC_SetAPB2Prescaler LL_RCC_APB2_DIV_1) (by decide) h3

/-- The selection of the prerequisites, the switch and the final status read
from the trace of a run that returned. -/
theorem returned_sub (o : Oracle) (fuel : Nat) :
    (bl_clock_config o fuel).running = true →
      List.Sublist (switchPrerequisites ++
        [switchEvent, Event.RCC_GetSysClkSource LL_RCC_SYS_CLKSOURCE_STATUS_PLL])
        (bl_clock_config o fuel).trace := by
  have h1 := sub_emit_add switchEvent (before_switch_sub o fuel)
  have h2 := sub_poll_add o.sysClkSource Event.RCC_GetSysClkSource
    LL_RCC_SYS_CLKSOURCE_STATUS_PLL h1
  have h3 := sub_emit_keep (Event.RCC_SetAHBPrescaler LL_RCC_SYSCLK_DIV_1) h2
  have h4 := sub_emit_keep (Event.RCC_SetAPB1Prescaler LL_RCC_APB1_DIV_1) h3
  have h5 := sub_emit_keep (Event.RCC_SetAPB2Prescaler LL_RCC_APB2_DIV_1) h4
  intro hr
  have := h5 hr
  simpa [List.append_assoc] using this

/-- A run in which one of the five status reads never yields the awaited value
does not return. -/
theorem never_returns (o : Oracle) (fuel : Nat)
    (h : (∀ k, o.flashLatency k ≠ LL_FLASH_LATENCY_4) ∨ (∀ k, o.vosFlag k ≠ 0) ∨
      (∀ k, o.hsiReady k ≠ 1) ∨ (∀ k, o.pllReady k ≠ 1) ∨
      (∀ k, o.sysClkSource k ≠ LL_RCC_SYS_CLKSOURCE_STATUS_PLL)) :
    (bl_clock_config o fuel).running = false := by
  have tail : ∀ x : Exec, x.running = false →
      (((((x.emit switchEvent).poll o.sysClkSource Event.RCC_GetSysClkSource
        LL_RCC_SYS_CLKSOURCE_STATUS_PLL).emit (Event.RCC_SetAHBPrescaler LL_RCC_SYSCLK_DIV_1)).emit
        (Event.RCC_SetAPB1Prescaler LL_RCC_APB1_DIV_1)).emit
        (Event.RCC_SetAPB2Prescaler LL_RCC_APB2_DIV_1)).running = false :=
    fun x hx => stopped_emit _ (stopped_emit _ (stopped_emit _ (stopped_poll _ _ _
      (stopped_emit _ hx))))
  rcases h with h | h | h | h | h
  · have s2 := poll_never ((Exec.mk [] fuel true).emit (Event.FLASH_SetLatency LL_FLASH_LATENCY_4))
      o.flashLatency Event.FLASH_GetLatency LL_FLASH_LATENCY_4 h
    have s3 := stopped_emit (Event.PWR_SetRegulVoltageScaling LL_PWR_REGU_VOLTAGE_SCALE1) s2
    have s4 := stopped_poll o.vosFlag Event.PWR_IsActiveFlag_VOS 0 s3
    have s5 := stopped_emit Event.RCC_HSI_Enable s4
    have s6 := stopped_poll o.hsiReady Event.RCC_HSI_IsReady 1 s5
    have s7 := stopped_emit (Event.RCC_PLL_ConfigDomain_SYS LL_RCC_PLLSOURCE_HSI
      LL_RCC_PLLM_DIV_2 40 LL_RCC_PLLR_DIV_2) s6
    have s8 := stopped_emit Event.RCC_PLL_EnableDomain_SYS s7
    have s9 := stopped_emit Event.RCC_PLL_Enable s8
    have s10 := stopped_poll o.pllReady Event.RCC_PLL_IsReady 1 s9
    exact tail _ s10
  · have s4 := poll_never ((((Exec.mk [] fuel true).emit
      (Event.FLASH_SetLatency LL_FLASH_LATENCY_4)).poll o.flashLatency Event.FLASH_GetLatency
      LL_FLASH_LATENCY_4).emit (Event.PWR_SetRegulVoltageScaling LL_PWR_REGU_VOLTAGE_SCALE1))
      o.vosFlag Event.PWR_IsActiveFlag_VOS 0 h
    have s5 := stopped_emit Event.RCC_HSI_Enable s4
    have s6 := stopped_poll o.hsiReady Event.RCC_HSI_IsReady 1 s5
    have s7 := stopped_emit (Event.RCC_PLL_ConfigDomain_SYS LL_RCC_PLLSOURCE_HSI
      LL_RCC_PLLM_DIV_2 40 LL_RCC_PLLR_DIV_2) s6
    have s8 := stopped_emit Event.RCC_PLL_EnableDomain_SYS s7
    have s9 := stopped_emit Event.RCC_PLL_Enable s8
    have s10 := stopped_poll o.pllReady Event.RCC_PLL_IsReady 1 s9
    exact tail _ s10
  · have s6 := poll_never ((((((Exec.mk [] fuel true).emit
      (Event.FLASH_SetLatency LL_FLASH_LATENCY_4)).poll o.flashLatency Event.FLASH_GetLatency
      LL_FLASH_LATENCY_4).emit (Event.PWR_SetRegulVoltageScaling LL_PWR_REGU_VOLTAGE_SCALE1)).poll
      o.vosFlag Event.PWR_IsActiveFlag_VOS 0).emit Event.RCC_HSI_Enable)
      o.hsiReady Event.RCC_HSI_IsReady 1 h
    have s7 := stopped_emit (Event.RCC_PLL_ConfigDomain_SYS LL_RCC_PLLSOURCE_HSI
      LL_RCC_PLLM_DIV_2 40 LL_RCC_PLLR_DIV_2) s6
    have s8 := stopped_emit Event.RCC_PLL_EnableDomain_SYS s7
    have s9 := stopped_emit Event.RCC_PLL_Enable s8
    have s10 := stopped_poll o.pllReady Event.RCC_PLL_IsReady 1 s9
    exact tail _ s10
  · have s10 : (bl_clock_config_before_switch o fuel).running = false :=
      poll_never _ o.pllReady Event.RCC_PLL_IsReady 1 h
    exact tail _ s10
  · exact stopped_emit _ (stopped_emit _ (stopped_emit _
      (poll_never ((bl_clock_config_before_switch o fuel).emit switchEvent) o.sysClkSource
        Event.RCC_GetSysClkSource LL_RCC_SYS_CLKSOURCE_STATUS_PLL h)))

/-- A run against an oracle that yields each awaited value, at reads `k1` to
`k5` of the five status registers, returns when enough loop iterations are
allowed. -/
theorem returns_of_ready (o : Oracle) (fuel k1 k2 k3 k4 k5 : Nat)
    (h1 : o.flashLatency k1 = LL_FLASH_LATENCY_4) (h2 : o.vosFlag k2 = 0)
    (h3 : o.hsiReady k3 = 1) (h4 : o.pllReady k4 = 1)
    (h5 : o.sysClkSource k5 = LL_RCC_SYS_CLKSOURCE_STATUS_PLL)
    (hfuel : k1 + k2 + k3 + k4 + k5 + 5 ≤ fuel) :
    (bl_clock_config o fuel).running = true := by
  have l0 : (Exec.mk [] fuel true).running = true ∧
      ((((0 + k5 + 1) + k4 + 1) + k3 + 1) + k2 + 1) + k1 + 1 ≤ (Exec.mk [] fuel true).fuel :=
    ⟨rfl, by show _ ≤ fuel; omega⟩
  have l1 := live_emit (Event.FLASH_SetLatency LL_FLASH_LATENCY_4) l0
  have l2 := live_poll o.flashLatency Event.FLASH_GetLatency LL_FLASH_LATENCY_4 k1 h1 l1
  have l3 := live_emit (Event.PWR_SetRegulVoltageScaling LL_PWR_REGU_VOLTAGE_SCALE1) l2
  have l4 := live_poll o.vosFlag Event.PWR_IsActiveFlag_VOS 0 k2 h2 l3
  have l5 := live_emit Event.RCC_HSI_Enable l4
  have l6 := live_poll o.hsiReady Event.RCC_HSI_IsReady 1 k3 h3 l5
  have l7 := live_emit (Event.RCC_PLL_ConfigDomain_SYS LL_RCC_PLLSOURCE_HSI
    LL_RCC_PLLM_DIV_2 40 LL_RCC_PLLR_DIV_2) l6
  have l8 := live_emit Event.RCC_PLL_EnableDomain_SYS l7
  have l9 := live_emit Event.RCC_PLL_Enable l8
  have l10 := live_poll o.pllReady Event.RCC_PLL_IsReady 1 k4 h4 l9
  have l11 := live_emit switchEvent l10
  have l12 := live_poll o.sysClkSource Event.RCC_GetSysClkSource
    LL_RCC_SYS_CLKSOURCE_STATUS_PLL k5 h5 l11
  have l13 := live_emit (Event.RCC_SetAHBPrescaler LL_RCC_SYSCLK_DIV_1) l12
  have l14 := live_emit (Event.RCC_SetAPB1Prescaler LL_RCC_APB1_DIV_1) l13
  exact (live_emit (Event.RCC_SetAPB2Prescaler LL_RCC_APB2_DIV_1) l14).1

/-- C9: on g431, with every hardware status read an arbitrary oracle value, in
every execution of `bl_clock_config` whose trace holds the system-clock switch
`LL_RCC_SetSysClkSource(LL_RCC_SYS_CLKSOURCE_PLL)`, the switch occurs once and
the accesses before it contain, in this order, the flash latency written as 4,
the latency read back as 4, voltage scaling range 1 requested, the VOS flag read
as 0, HSI read as ready and the PLL read as ready; an execution that returns has
after the switch read the system-clock status as PLL; an execution in which one
of the five status reads never yields the awaited value never returns, whatever
number of loop iterations is allowed; and when every awaited value does come,
the execution returns once enough iterations are allowed. -/
theorem bl_clock_config_order (o : Oracle) (fuel : Nat) :
    (switchEvent ∈ (bl_clock_config o fuel).trace →
      ∃ pre post, (bl_clock_config o fuel).trace = pre ++ switchEvent :: post ∧
        List.Sublist switchPrerequisites pre ∧ switchEvent ∉ pre ∧ switchEvent ∉ post) ∧
    ((bl_clock_config o fuel).running = true →
      List.Sublist (switchPrerequisites ++
        [switchEvent, Event.RCC_GetSysClkSource LL_RCC_SYS_CLKSOURCE_STATUS_PLL])
        (bl_clock_config o fuel).trace) ∧
    (((∀ k, o.flashLatency k ≠ LL_FLASH_LATENCY_4) ∨ (∀ k, o.vosFlag k ≠ 0) ∨
      (∀ k, o.hsiReady k ≠ 1) ∨ (∀ k, o.pllReady k ≠ 1) ∨
      (∀ k, o.sysClkSource k ≠ LL_RCC_SYS_CLKSOURCE_STATUS_PLL)) →
      ∀ fuel', (bl_clock_config o fuel').running = false) ∧
    (∀ k1 k2 k3 k4 k5, o.flashLatency k1 = LL_FLASH_LATENCY_4 → o.vosFlag k2 = 0 →
      o.hsiReady k3 = 1 → o.pllReady k4 = 1 →
      o.sysClkSource k5 = LL_RCC_SYS_CLKSOURCE_STATUS_PLL →
      k1 + k2 + k3 + k4 + k5 + 5 ≤ fuel → (bl_clock_config o fuel).running = true) := by
  refine ⟨?_, returned_sub o fuel, fun h fuel' => never_returns o fuel' h,
    fun k1 k2 k3 k4 k5 h1 h2 h3 h4 h5 hf => returns_of_ready o fuel k1 k2 k3 k4 k5 h1 h2 h3 h4 h5 hf⟩
  intro hmem
  obtain ⟨post, hpost, hall⟩ := after_switch_ext o fuel
  have hno := before_switch_no_switch o fuel
  have hrun : (bl_clock_config_before_switch o fuel).running = true := by
    by_contra hstop
    rw [hpost, emit_trace, if_neg hstop, List.append_nil] at hmem
    rcases List.mem_append.mp hmem with h | h
    · exact hno h
    · exact hall _ h rfl
  refine ⟨(bl_clock_config_before_switch o fuel).trace, post, ?_, before_switch_sub o fuel hrun,
    hno, fun h => hall _ h rfl⟩
  rw [hpost, emit_trace, if_pos hrun, List.append_assoc, List.singleton_append]

/-- Witness for C9: the hardware reports every awaited value at the first read
and five loop iterations are allowed. -/
theorem bl_clock_config_order_witness :
    List.Sublist (switchPrerequisites ++
      [switchEvent, Event.RCC_GetSysClkSource LL_RCC_SYS_CLKSOURCE_STATUS_PLL])
      (bl_clock_config readyOracle 5).trace :=
  (bl_clock_config_order readyOracle 5).2.1 rfl

/-- The clock control state after any run of `bl_clock_config` that returned,
whatever the hardware reported in between. -/
theorem rccAfter_returned (o : Oracle) (fuel : Nat) :
    (bl_clock_config o fuel).running = true →
      rccAfter (bl_clock_config o fuel).trace = configuredRCC := by
  have hsys : ∀ (s : RCCState) (v : Nat), v ≠ LL_RCC_SYS_CLKSOURCE_STATUS_PLL →
      applyEvent s (Event.RCC_GetSysClkSource v) = s := by
    intro s v hv
    simp [applyEvent, hv]
  have h0 : (Exec.mk [] fuel true).running = true →
      rccAfter (Exec.mk [] fuel true).trace = RCCState.reset := fun _ => rfl
  have h1 := fold_emit (Event.FLASH_SetLatency LL_FLASH_LATENCY_4) h0
  have h2 := fold_poll o.flashLatency Event.FLASH_GetLatency LL_FLASH_LATENCY_4
    (fun _ _ _ => rfl) h1
  have h3 := fold_emit (Event.PWR_SetRegulVoltageScaling LL_PWR_REGU_VOLTAGE_SCALE1) h2
  have h4 := fold_poll o.vosFlag Event.PWR_IsActiveFlag_VOS 0 (fun _ _ _ => rfl) h3
  have h5 := fold_emit Event.RCC_HSI_Enable h4
  have h6 := fold_poll o.hsiReady Event.RCC_HSI_IsReady 1 (fun _ _ _ => rfl) h5
  have h7 := fold_emit (Event.RCC_PLL_ConfigDomain_SYS LL_RCC_PLLSOURCE_HSI
    LL_RCC_PLLM_DIV_2 40 LL_RCC_PLLR_DIV_2) h6
  have h8 := fold_emit Event.RCC_PLL_EnableDomain_SYS h7
  have h9 := fold_emit Event.RCC_PLL_Enable h8
  have h10 := fold_poll o.pllReady Event.RCC_PLL_IsReady 1 (fun _ _ _ => rfl) h9
  have h11 := fold_emit switchEvent h10
  have h12 := fold_poll o.sysClkSource Event.RCC_GetSysClkSource
    LL_RCC_SYS_CLKSOURCE_STATUS_PLL hsys h11
  have h13 := fold_emit (Event.RCC_SetAHBPrescaler LL_RCC_SYSCLK_DIV_1) h12
  have h14 := fold_emit (Event.RCC_SetAPB1Prescaler LL_RCC_APB1_DIV_1) h13
  have h15 := fold_emit (Event.RCC_SetAPB2Prescaler LL_RCC_APB2_DIV_1) h14
  intro hr
  exact (h15 hr).trans rfl

/-- Without the system-clock switch the timer that `bl_timer_init` sets up would
count at 100 kHz: at reset the system clock is the 16 MHz oscillator. -/
theorem timerCountRateHz_reset (m : Machine) :
    timerCountRateHz RCCState.reset (bl_timer_init m) = 100000 := by
  have h : timerCountRateHz RCCState.reset (bl_timer_init m) = 16000000 / (159 + 1) := rfl
  rw [h]

/-- A timer whose bus clock is off or whose counter is not enabled does not
count, whatever the clock tree. -/
theorem timerCountRateHz_stopped (s : RCCState) (m : Machine)
    (h : m.tim2_clock = false ∨ m.TIM2.counterEnabled = false) : timerCountRateHz s m = 0 := by
  unfold timerCountRateHz
  rcases h with h | h <;> simp [h]

/-- C7: on g431, any run of `bl_clock_config` that returned has issued the
system-clock switch and leaves the clock control state with the PLL in use as
system clock, fed from the 16 MHz HSI with PLLM divider 2, PLLN multiplier 40
and PLLR divider 2, and with AHB and APB1 prescalers 1, so that the timer input
clock is `16000000 / 2 * 40 / 2 = 160000000` Hz; `bl_timer_init` turns the bus
clock of the timer on, enables the counter and writes the prescaler `160 - 1`;
the timer then counts at `160000000 / (159 + 1) = 1000000` Hz, and no division
in the chain leaves a remainder. -/
theorem timer_one_tick_per_microsecond (o : Oracle) (fuel : Nat) (m : Machine)
    (h : (bl_clock_config o fuel).running = true) :
    switchEvent ∈ (bl_clock_config o fuel).trace ∧
    (rccAfter (bl_clock_config o fuel).trace).sysClkSource = SysClkSource.PLL ∧
    (rccAfter (bl_clock_config o fuel).trace).pllSource = PLLSource.HSI ∧
    (rccAfter (bl_clock_config o fuel).trace).pllInputHz = 16000000 ∧
    (rccAfter (bl_clock_config o fuel).trace).pllm = 2 ∧
    (rccAfter (bl_clock_config o fuel).trace).plln = 40 ∧
    (rccAfter (bl_clock_config o fuel).trace).pllr = 2 ∧
    (rccAfter (bl_clock_config o fuel).trace).ahbPrescaler = 1 ∧
    (rccAfter (bl_clock_config o fuel).trace).apb1Prescaler = 1 ∧
    (rccAfter (bl_clock_config o fuel).trace).sysclkHz = 160000000 ∧
    (rccAfter (bl_clock_config o fuel).trace).timerHz = 16000000 / 2 * 40 / 2 ∧
    (rccAfter (bl_clock_config o fuel).trace).timerHz = 160000000 ∧
    (bl_timer_init m).tim2_clock = true ∧
    (bl_timer_init m).TIM2.counterEnabled = true ∧
    (bl_timer_init m).TIM2.PSC = 160 - 1 ∧
    timerCountRateHz (rccAfter (bl_clock_config o fuel).trace) (bl_timer_init m) =
      160000000 / (159 + 1) ∧
    timerCountRateHz (rccAfter (bl_clock_config o fuel).trace) (bl_timer_init m) = 1000000 ∧
    (rccAfter (bl_clock_config o fuel).trace).exact (bl_timer_init m).TIM2.PSC := by
  have hsw : switchEvent ∈ (bl_clock_config o fuel).trace :=
    (returned_sub o fuel h).subset (by simp [switchPrerequisites])
  have hrate : timerCountRateHz configuredRCC (bl_timer_init m) = 160000000 / (159 + 1) := rfl
  have hpsc : (bl_timer_init m).TIM2.PSC = 159 := rfl
  rw [rccAfter_returned o fuel h, hrate, hpsc]
  refine ⟨hsw, rfl, rfl, rfl, rfl, rfl, rfl, rfl, rfl, by decide, by decide, by decide, rfl, rfl,
    rfl, rfl, by decide, ?_⟩
  unfold RCCState.exact
  decide

/-- Witness for C7: the hardware reports every awaited value at the first read,
five loop iterations are allowed, and the timer starts from its reset state
with its bus clock off. -/
theorem timer_one_tick_per_microsecond_witness :
    timerCountRateHz (rccAfter (bl_clock_config readyOracle 5).trace) (bl_timer_init
      ⟨false, ⟨false, false, 0, 0xFFFFFFFF, 0⟩, true, 0, 0, 0, fun _ => 0, []⟩) = 1000000 :=
  (timer_one_tick_per_microsecond readyOracle 5
    ⟨false, ⟨false, false, 0, 0xFFFFFFFF, 0⟩, true, 0, 0, 0, fun _ => 0, []⟩
    rfl).2.2.2.2.2.2.2.2.2.2.2.2.2.2.2.2.1

end G431

theorem upCount_eq (arr cnt : Nat) (h : cnt ≤ arr) : upCount arr cnt = (cnt + 1) % (arr + 1) := by
  unfold upCount
  by_cases hc : cnt ≥ arr
  · have : cnt = arr := by omega
    subst this
    simp
  · rw [if_neg hc, Nat.mod_eq_of_lt (by omega)]

theorem upCount_le (arr cnt : Nat) : upCount arr cnt ≤ arr := by
  unfold upCount
  split <;> omega

/-- After `d` counts a counter that started at `cnt ≤ arr` holds
`(cnt + d) % (arr + 1)`. -/
theorem advance_eq (arr d : Nat) : ∀ cnt, cnt ≤ arr → advance arr d cnt = (cnt + d) % (arr + 1) := by
  induction d with
  | zero =>
    intro cnt h
    simp only [advance, Nat.add_zero]
    exact (Nat.mod_eq_of_lt (by omega)).symm
  | succ d ih =>
    intro cnt h
    simp only [advance]
    rw [ih _ (upCount_le arr cnt), upCount_eq arr cnt h, Nat.mod_add_mod]
    congr 1
    omega

/-- C6: with the counter configurations set by `bl_timer_init` (g431: 32-bit
up-counter with auto-reload `0xFFFFFFFF`, read through a conversion to
`uint16_t`; v203: 16-bit up-counter with period `0xFFFF`), for every starting
counter value `c` of the counter's width and every `d < 2 ^ 16`, if `t1` is
`bl_timer_us()` at counter value `c` and `t2` is `bl_timer_us()` after the
counter has counted `d` times, wrapping at its reload value, then
`(t2 - t1) mod 2 ^ 16 = d`. -/
theorem bl_timer_us_elapsed (RCC_APB1Periph_TIM2 TIM_CKD_DIV1 TIM_CounterMode_Up TIM_ARPE
    TIM_CEN : Nat) (mg : G431.Machine) (mv : V203.Machine) (c32 c16 d : Nat)
    (hd : d < 2 ^ 16) (hc32 : c32 < 2 ^ 32) (hc16 : c16 < 2 ^ 16) :
    (G431.bl_timer_init mg).TIM2.ARR = 0xFFFFFFFF ∧
    elapsed16 (G431.bl_timer_us (G431.atCount (G431.bl_timer_init mg) c32))
      (G431.bl_timer_us (G431.afterTicks (G431.atCount (G431.bl_timer_init mg) c32) d)) = d ∧
    (V203.bl_timer_init RCC_APB1Periph_TIM2 TIM_CKD_DIV1 TIM_CounterMode_Up TIM_ARPE TIM_CEN
      mv).TIM2.ATRLR = 0xFFFF ∧
    elapsed16
      (V203.bl_timer_us (V203.atCount (V203.bl_timer_init RCC_APB1Periph_TIM2 TIM_CKD_DIV1
        TIM_CounterMode_Up TIM_ARPE TIM_CEN mv) c16))
      (V203.bl_timer_us (V203.afterTicks (V203.atCount (V203.bl_timer_init RCC_APB1Periph_TIM2
        TIM_CKD_DIV1 TIM_CounterMode_Up TIM_ARPE TIM_CEN mv) c16) d)) = d := by
  have hg : (G431.bl_timer_init mg).TIM2.ARR = 0xFFFFFFFF := rfl
  have hv : (V203.bl_timer_init RCC_APB1Periph_TIM2 TIM_CKD_DIV1 TIM_CounterMode_Up TIM_ARPE
      TIM_CEN mv).TIM2.ATRLR = 0xFFFF := rfl
  refine ⟨hg, ?_, hv, ?_⟩
  · have h1 : G431.bl_timer_us (G431.atCount (G431.bl_timer_init mg) c32) = c32 % 65536 := rfl
    have h2 : G431.bl_timer_us (G431.afterTicks (G431.atCount (G431.bl_timer_init mg) c32) d) =
        (advance 0xFFFFFFFF d c32) % 65536 := rfl
    rw [h1, h2, advance_eq _ _ _ (by norm_num at hc32 ⊢; omega)]
    unfold elapsed16
    norm_num at hd hc32 ⊢
    omega
  · have h1 : V203.bl_timer_us (V203.atCount (V203.bl_timer_init RCC_APB1Periph_TIM2 TIM_CKD_DIV1
        TIM_CounterMode_Up TIM_ARPE TIM_CEN mv) c16) = c16 % 65536 := rfl
    have h2 : V203.bl_timer_us (V203.afterTicks (V203.atCount (V203.bl_timer_init
        RCC_APB1Periph_TIM2 TIM_CKD_DIV1 TIM_CounterMode_Up TIM_ARPE TIM_CEN mv) c16) d) =
        (advance 0xFFFF d c16) % 65536 := rfl
    rw [h1, h2, advance_eq _ _ _ (by norm_num at hc16 ⊢; omega)]
    unfold elapsed16
    norm_num at hd hc16 ⊢
    omega

/-- Witness for C6: both counters three counts before they wrap, seven counts
between the two reads. -/
theorem bl_timer_us_elapsed_witness :
    elapsed16
      (G431.bl_timer_us (G431.atCount (G431.bl_timer_init
        ⟨false, ⟨false, false, 0, 0, 0⟩, true, 0, 0, 0, fun _ => 0, []⟩) 0xFFFFFFFD))
      (G431.bl_timer_us (G431.afterTicks (G431.atCount (G431.bl_timer_init
        ⟨false, ⟨false, false, 0, 0, 0⟩, true, 0, 0, 0, fun _ => 0, []⟩) 0xFFFFFFFD) 7)) = 7 :=
  (bl_timer_us_elapsed 0x1 0 0 0x80 0x1
    ⟨false, ⟨false, false, 0, 0, 0⟩, true, 0, 0, 0, fun _ => 0, []⟩
    ⟨0, ⟨0, 0, 0, 0⟩, true, 0, fun _ => 0, []⟩ 0xFFFFFFFD 0xFFFD 7
    (by decide) (by decide) (by decide)).2.1

/-- C5: for a valid single-bit pin identifier `GPIO_PIN n` (`n ≤ 15`), on both
ports, with a write to the bit-set register setting exactly the written bits of
the output latch, a write to the bit-clear register clearing them, and the input
register showing the latch on lines configured as output: after
`gpio_mode_set_output(pin, GPIO_OUTPUT_PUSH_PULL)`, `gpio_set(pin)` then
`gpio_read(pin)` gives true, `gpio_clear(pin)` then `gpio_read(pin)` gives
false, and in any port state neither `gpio_set(pin)` nor `gpio_clear(pin)`
changes what `gpio_read` gives for another pin. On v203 `GPIO_Speed_2MHz` is one
of the three output speed codes 1 to 3. -/
theorem gpio_set_clear_read_spec (n GPIO_Speed_2MHz LL_GPIO_OUTPUT_PUSHPULL : Nat)
    (hn : n ≤ 15) (hspeed : 1 ≤ GPIO_Speed_2MHz ∧ GPIO_Speed_2MHz ≤ 3)
    (p : V203.GPIO_TypeDef) (g : G431.GPIO_TypeDef) :
    (V203.gpio_read (V203.GPIO_PIN n) (V203.gpio_set (V203.GPIO_PIN n)
      (V203.gpio_mode_set_output (V203.GPIO_PIN n)
        (V203.GPIO_OUTPUT_PUSH_PULL GPIO_Speed_2MHz) p)) = true ∧
     V203.gpio_read (V203.GPIO_PIN n) (V203.gpio_clear (V203.GPIO_PIN n)
      (V203.gpio_mode_set_output (V203.GPIO_PIN n)
        (V203.GPIO_OUTPUT_PUSH_PULL GPIO_Speed_2MHz) p)) = false ∧
     (∀ (r : V203.GPIO_TypeDef) (j : Nat), j ≤ 15 → j ≠ n →
      V203.gpio_read (V203.GPIO_PIN j) (V203.gpio_set (V203.GPIO_PIN n) r) =
        V203.gpio_read (V203.GPIO_PIN j) r ∧
      V203.gpio_read (V203.GPIO_PIN j) (V203.gpio_clear (V203.GPIO_PIN n) r) =
        V203.gpio_read (V203.GPIO_PIN j) r)) ∧
    (G431.gpio_read (G431.GPIO_PIN n) (G431.gpio_set (G431.GPIO_PIN n)
      (G431.gpio_mode_set_output (G431.GPIO_PIN n)
        (G431.GPIO_OUTPUT_PUSH_PULL LL_GPIO_OUTPUT_PUSHPULL) g)) = true ∧
     G431.gpio_read (G431.GPIO_PIN n) (G431.gpio_clear (G431.GPIO_PIN n)
      (G431.gpio_mode_set_output (G431.GPIO_PIN n)
        (G431.GPIO_OUTPUT_PUSH_PULL LL_GPIO_OUTPUT_PUSHPULL) g)) = false ∧
     (∀ (r : G431.GPIO_TypeDef) (j : Nat), j ≤ 15 → j ≠ n →
      G431.gpio_read (G431.GPIO_PIN j) (G431.gpio_set (G431.GPIO_PIN n) r) =
        G431.gpio_read (G431.GPIO_PIN j) r ∧
      G431.gpio_read (G431.GPIO_PIN j) (G431.gpio_clear (G431.GPIO_PIN n) r) =
        G431.gpio_read (G431.GPIO_PIN j) r)) :=
  ⟨V203.gpio_set_clear_read_v203 n GPIO_Speed_2MHz hn hspeed p,
    G431.gpio_set_clear_read_g431 n LL_GPIO_OUTPUT_PUSHPULL hn g⟩

/-- Witness for C5: line 4, `GPIO_Speed_2MHz = 2`, `LL_GPIO_OUTPUT_PUSHPULL = 0`,
ports with every line floating, pads low on v203 and high on g431. -/
theorem gpio_set_clear_read_spec_witness :
    V203.gpio_read (V203.GPIO_PIN 4) (V203.gpio_set (V203.GPIO_PIN 4)
      (V203.gpio_mode_set_output (V203.GPIO_PIN 4) (V203.GPIO_OUTPUT_PUSH_PULL 2)
        ⟨0x44444444, 0x44444444, 0, 0, []⟩)) = true :=
  (gpio_set_clear_read_spec 4 2 0 (by decide) (by decide)
    ⟨0x44444444, 0x44444444, 0, 0, []⟩ ⟨0, 0, 0, 0xFFFF⟩).1.1

end AM32
